import Mathlib

/-!
Verification of the WhatsApp PDF assistant (`whatsapp-smart-agent`).

This file is a shallow embedding of the pieces of the application that the
specification talks about: the per-user document store with quota eviction
(`WebhookService.handle_document`), the per-user session rows and the
`_set_user_state` helper, the text dispatcher (`WebhookService.handle_text`,
`handle_command`, `handle_special_intent`), the retrieval index
(`LLMService.process_document_sync` / `get_answer`), and the two webhook entry
points (`app/main.py` and `app/routes/webhook.py`).

Databases are modelled as explicit record lists, the fallible external
collaborators (text extraction, embeddings, generation, the QA engine seen
from the dispatcher) as function parameters, and each Python handler as a
pure function from the database (and its inputs) to the new database, the
outbound messages, and a structured result.

Python string primitives (`str.lower`, `str.startswith`, `str.strip`,
`str.split(" ")`, the `in` containment test) are modelled character-wise on
`List Char` so that every definition is executable by kernel reduction.
Outbound message texts are abbreviated to short constant strings; no theorem
below depends on the wording of a message, only on which message is sent.
-/

/-- Model of Python `str.lower` (ASCII casing, as used by the handlers). -/
def pyLower (s : String) : String :=
  String.mk (s.toList.map Char.toLower)

/-- Model of Python `str.startswith`. -/
def pyStarts (s p : String) : Bool :=
  p.toList.isPrefixOf s.toList

/-- Characters treated as whitespace by Python `str.strip()`. -/
def isPySpace (c : Char) : Bool :=
  c = ' ' || c = '\t' || c = '\n' || c = '\r'

/-- Model of Python `str.strip()`. -/
def pyStrip (s : String) : String :=
  String.mk (((s.toList.dropWhile isPySpace).reverse.dropWhile isPySpace).reverse)

/-- Helper for `pySplitSpace`: accumulate the current field. -/
def pySplitSpaceGo : List Char → List Char → List String
  | acc, [] => [String.mk acc.reverse]
  | acc, c :: t =>
    if c = ' ' then String.mk acc.reverse :: pySplitSpaceGo [] t
    else pySplitSpaceGo (c :: acc) t

/-- Model of Python `str.split(" ")` (splits at every single space). -/
def pySplitSpace (s : String) : List String :=
  pySplitSpaceGo [] s.toList

/-- Substring test on character lists. -/
def hasInfixCh (p : List Char) : List Char → Bool
  | [] => p.isEmpty
  | c :: t => p.isPrefixOf (c :: t) || hasInfixCh p t

/-- Model of Python `pat in text` containment. -/
def pyContains (text pat : String) : Bool :=
  hasInfixCh pat.toList text.toList

/-- Parse a decimal natural number the way Python `int` does for digit strings. -/
def parseDigits : List Char → Option Nat
  | [] => none
  | cs => if cs.all Char.isDigit
      then some (cs.foldl (fun n c => n * 10 + (c.toNat - '0'.toNat)) 0)
      else none

/-- The digit part of a Python integer literal: decimal digits with single
underscores allowed between digits (`1_0` parses, `_1`, `1_` and `1__0`
raise). -/
def pyIntDigits (cs : List Char) : Option Nat :=
  if cs.isEmpty then none
  else if cs.head? = some '_' || cs.getLast? = some '_' then none
  else if hasInfixCh ['_', '_'] cs then none
  else if cs.all (fun c => c.isDigit || c = '_') then
    parseDigits (cs.filter (fun c => !(c = '_')))
  else none

/-- Model of Python `int(s)`: surrounding whitespace is stripped, then an
optional sign followed by decimal digits (single underscores between
digits allowed); anything else raises `ValueError`, modelled as `none`. -/
def pyInt? (s : String) : Option Int :=
  match (pyStrip s).toList with
  | '-' :: rest => (pyIntDigits rest).map (fun n => -(n : Int))
  | '+' :: rest => (pyIntDigits rest).map (fun n => (n : Int))
  | cs => (pyIntDigits cs).map (fun n => (n : Int))

/-- Remove the first element satisfying `p` (model of deleting one row). -/
def eraseFirst (p : α → Bool) : List α → List α
  | [] => []
  | x :: xs => if p x then xs else x :: eraseFirst p xs

/-- Update the first element satisfying `p` (model of mutating one row). -/
def mapFirst (p : α → Bool) (f : α → α) : List α → List α
  | [] => []
  | x :: xs => if p x then f x :: xs else x :: mapFirst p f xs

/-- A stored PDF document row (`app/models.py` / `data_schemas/pdf_document.py`).
`upload_date` is an abstract timestamp ordinal. -/
structure PDFDoc where
  id : Nat
  filename : String
  content : String
  upload_date : Nat
  user_id : String
  whatsapp_file_id : Option String
  processed : Bool
deriving DecidableEq, Repr

/-- A per-user session row (`UserState` in `app/models.py`). -/
structure UserStateRow where
  user_id : String
  state : String
  active_pdf_id : Option Nat
deriving DecidableEq, Repr

/-- A stored bug report row (`BugReport` in `app/models.py`). -/
structure BugReportRow where
  user_id : String
  user_name : String
  content : String
deriving DecidableEq, Repr

/-- The relational store: document rows, session rows, bug reports, the
processed-message identifiers, plus the allocator state for fresh primary
keys and strictly increasing upload timestamps. -/
structure DB where
  docs : List PDFDoc
  states : List UserStateRow
  reports : List BugReportRow
  processedIds : List String
  nextId : Nat
  nextDate : Nat
deriving DecidableEq, Repr

def DB.empty : DB := ⟨[], [], [], [], 0, 0⟩

/-- `SELECT * FROM pdfdocument WHERE user_id = uid` (in row order). -/
def userDocs (db : DB) (uid : String) : List PDFDoc :=
  db.docs.filter (fun d => d.user_id == uid)

/-- `SELECT count(*) ...` for one user. -/
def countDocs (db : DB) (uid : String) : Nat :=
  (userDocs db uid).length

/-- `ORDER BY upload_date LIMIT 1` — the first row with the minimal
`upload_date` (stable in row order, matching SQLite on ties). -/
def oldestDoc : List PDFDoc → Option PDFDoc
  | [] => none
  | d :: ds =>
    match oldestDoc ds with
    | none => some d
    | some o => if d.upload_date ≤ o.upload_date then some d else some o

/-- Stable insertion for `ORDER BY upload_date DESC`. -/
def insertDesc (d : PDFDoc) : List PDFDoc → List PDFDoc
  | [] => [d]
  | e :: es =>
    if e.upload_date ≥ d.upload_date then e :: insertDesc d es
    else d :: e :: es

/-- `ORDER BY upload_date DESC` (newest first, stable). -/
def sortDesc : List PDFDoc → List PDFDoc
  | [] => []
  | d :: ds => insertDesc d (sortDesc ds)

/-- The most recently uploaded document of a user
(`ORDER BY upload_date DESC ... .first()`). -/
def latestDoc (db : DB) (uid : String) : Option PDFDoc :=
  (sortDesc (userDocs db uid)).head?

/-- `session.get(PDFDocument, i)` — primary-key lookup, any owner. -/
def docById (db : DB) (i : Nat) : Option PDFDoc :=
  db.docs.find? (fun d => d.id == i)

/-- `SELECT * FROM userstate WHERE user_id = uid ... .first()`. -/
def stateRowOf (db : DB) (uid : String) : Option UserStateRow :=
  db.states.find? (fun u => u.user_id == uid)

/-- `WebhookService._set_user_state`: update the existing session row, or
create one.  When the row exists, `active_pdf_id` is only overwritten when
the argument is not `None` ("Only update active_pdf_id if provided,
otherwise keep existing"); on row creation the given value (possibly
`None`) is stored. -/
def setUserState (db : DB) (uid st : String) (active : Option Nat) : DB :=
  match stateRowOf db uid with
  | some _ =>
    let upd := fun (u : UserStateRow) =>
      { u with
        state := st
        active_pdf_id := (match active with
          | some i => some i
          | none => u.active_pdf_id) }
    { db with states := mapFirst (fun u => u.user_id == uid) upd db.states }
  | none =>
    { db with states := db.states ++ [⟨uid, st, active⟩] }

/-- Direct mutation `user_state.state = ...` on the fetched row
(the report branch of `handle_text`); `active_pdf_id` untouched. -/
def setStateFieldOnly (db : DB) (uid st : String) : DB :=
  { db with states := mapFirst (fun u => u.user_id == uid) (fun u => { u with state := st }) db.states }

example : pyLower "HeLLo" = "hello" := by decide
example : pySplitSpace "/delete 2" = ["/delete", "2"] := by decide
example : pyInt? "2" = some 2 := by decide
example : pyContains "what is x" "send" = false := by decide

/-! ## Retrieval index (`app/services/langchain_service.py`)

The embedding model, the similarity metric of the Annoy vector store and the
chat model are external collaborators; they enter as the function bundle
`RAGOps`.  The text splitter (`RecursiveCharacterTextSplitter(chunk_size=1000,
chunk_overlap=200)`) is library code outside `src/`. -/

/-- External model calls: `embed` one chunk, score the `sim`ilarity of two
embedding vectors (larger is more similar), and `gen`erate an answer from a
retrieved context and a question. -/
structure RAGOps where
  embed : String → List Int
  sim : List Int → List Int → Int
  gen : String → String → String

/-- Helper for `splitText`, recursing on a fuel bounded by the text length. -/
def splitTextGo : Nat → List Char → List String
  | 0, _ => []
  | _, [] => []
  | fuel + 1, cs =>
    if cs.length ≤ 1000 then [String.mk cs]
    else String.mk (cs.take 1000) :: splitTextGo fuel (cs.drop 800)

/-- Modelled from the spec: the library text splitter
(`RecursiveCharacterTextSplitter`, not part of `src/`) — "split extracted
text into overlapping chunks ... any reasonable fixed window, e.g. 1000
characters with 200 overlap, is acceptable as long as it is deterministic".
Fixed 1000-character windows with 200 characters of overlap. -/
def splitText (t : String) : List String :=
  splitTextGo t.length t.toList

/-- One retrieval-index entry: the ordered (chunk, embedding) pairs built by
`Annoy.from_documents`. -/
def buildIndex (ops : RAGOps) (t : String) : List (String × List Int) :=
  (splitText t).map (fun c => (c, ops.embed c))

/-- The in-memory `self._vectorstores` dictionary, keyed by document id. -/
abbrev VSMap := List (String × List (String × List Int))

/-- Dictionary lookup `self._vectorstores.get(key)`. -/
def vsGet (vs : VSMap) (k : String) : Option (List (String × List Int)) :=
  (vs.find? (fun p => p.1 == k)).map (fun p => p.2)

/-- Dictionary assignment `self._vectorstores[key] = value` (newest binding
shadows any older one). -/
def vsPut (vs : VSMap) (k : String) (v : List (String × List Int)) : VSMap :=
  (k, v) :: vs

/-- `LLMService.process_document_sync`: chunk, embed, store the index. -/
def processDocumentSync (ops : RAGOps) (vs : VSMap) (text docKey : String) : VSMap :=
  vsPut vs docKey (buildIndex ops text)

/-- Stable insertion by descending similarity score. -/
def insertByScore (x : String × Int) : List (String × Int) → List (String × Int)
  | [] => [x]
  | y :: ys => if y.2 > x.2 then y :: insertByScore x ys else x :: y :: ys

/-- Stable sort by descending similarity score. -/
def sortByScore : List (String × Int) → List (String × Int)
  | [] => []
  | x :: xs => insertByScore x (sortByScore xs)

/-- `vectorstore.as_retriever().get_relevant_documents(question)`: score every
chunk against the question embedding and keep the top 4 (the retriever
default). -/
def relevantChunks (ops : RAGOps) (idx : List (String × List Int)) (q : String) : List String :=
  let qv := ops.embed q
  ((sortByScore (idx.map (fun p => (p.1, ops.sim qv p.2)))).take 4).map (fun p => p.1)

/-- `"\n\n".join(doc.page_content for doc in docs)`. -/
def joinContext (chunks : List String) : String :=
  String.intercalate "\n\n" chunks

/-! ## Outbound message texts (abbreviated, pairwise distinct) -/

def msgOnlyPdf : String := "Sorry, I can only process PDF files."
def msgOnlyPdfNotImage : String := "Sorry, I can only process PDF files, not images."
def msgProcessingPdf (fn : String) : String := "Processing your PDF: " ++ fn ++ "..."
def msgTooLarge : String := "Sorry, the file is too large."
def msgDoneProcessing (fn : String) : String := "I have finished processing your PDF: " ++ fn
def msgTriedTimes : String := "Sorry, I have tried processing this PDF multiple times but encountered errors."
def msgDocError : String := "Sorry, I encountered an error while processing your PDF. Please try sending it again."
def msgReportThanks : String := "Thanks for your report. We will investigate soon."
def msgWelcome (name : String) : String := "Hi " ++ name ++ "! I am your smart PDF assistant."
def msgNoPdfYet : String := "I do not see any PDF files to analyze. Please upload a PDF file to continue, or use /list to select a previous one."
def msgUploadIntent : String := "I would be happy to help you with another file! Please send me the PDF you would like to analyze next."
def msgThanksReply : String := "You are welcome! Let me know if you need help with anything else regarding your documents."
def msgCapabilities : String := "I am your PDF assistant! Here is what I can do."
def msgHelp : String := "WhatsApp PDF Assistant Commands"
def msgNoPdfsUploaded : String := "No PDFs uploaded yet."
def msgPdfList (body : String) : String := "Your PDF files: " ++ body
def msgInvalidSelection : String := "Invalid selection. Please use /list to see available PDFs."
def msgDeleted (fn : String) : String := "Deleted PDF: " ++ fn
def msgSelected (fn : String) : String := "Selected: " ++ fn
def msgInvalidFormat : String := "Invalid command format."
def msgNoPdfsToDeleteAll : String := "You have not uploaded any PDFs yet."
def msgAllDeleted : String := "All your PDFs have been deleted."
def msgReportStart : String := "I am sorry you encountered an issue. Please describe the problem in detail."
def msgUnknownCommand : String := "Sorry, I do not recognize that command. Type /help to see available commands."
def msgTextError : String := "Sorry, I encountered an error trying to process your message. Please try again."
def msgWorkflowError : String := "Error processing your question."

/-! ## `WebhookService.handle_special_intent` -/

def uploadPatterns : List String :=
  ["upload", "send", "share", "new file", "another file", "different file", "add file", "attach"]

def thanksPatterns : List String :=
  ["thank", "thanks", "appreciate", "grateful"]

def capabilityPatterns : List String :=
  ["what can you do", "help me", "your abilities", "your features", "how do you work"]

/-- `WebhookService.handle_special_intent`: keyword containment on the
lowercased text, checked in source order; `some reply` models returning
`True` after sending `reply`, `none` models returning `False`. -/
def specialIntent (message_text : String) : Option String :=
  let t := pyLower message_text
  if uploadPatterns.any (fun p => pyContains t p) then some msgUploadIntent
  else if thanksPatterns.any (fun p => pyContains t p) then some msgThanksReply
  else if capabilityPatterns.any (fun p => pyContains t p) then some msgCapabilities
  else none

/-! ## `WebhookService.handle_command` -/

/-- Structured result of `handle_command` (the returned status dict). -/
inductive CmdResult where
  | help
  | list
  | selected (docId : Nat)
  | deleted (docId : Nat)
  | invalidSelection
  | invalidFormat
  | deletedAll (n : Nat)
  | deleteAllEmpty
  | reportStarted
  | unknown
deriving DecidableEq, Repr

/-- Outbound messages: (recipient, text) in send order. -/
abbrev Outbound := List (String × String)

/-- `WebhookService.handle_command` (`command.lower().strip()` first; the
`/delete N` / `/select N` arm parses `int(command.split(" ")[1]) - 1` against
the newest-first listing). -/
def handleCommand (db : DB) (uid command : String) : DB × Outbound × CmdResult :=
  let cmd := pyStrip (pyLower command)
  if cmd == "/help" then
    (db, [(uid, msgHelp)], .help)
  else if cmd == "/list" then
    let pdfs := sortDesc (userDocs db uid)
    if pdfs.isEmpty then (db, [(uid, msgNoPdfsUploaded)], .list)
    else (db, [(uid, msgPdfList (String.intercalate ", " (pdfs.map (fun p => p.filename))))], .list)
  else if pyStarts cmd "/delete " || pyStarts cmd "/select " then
    match (pySplitSpace cmd).get? 1 with
    | none => (db, [(uid, msgInvalidFormat)], .invalidFormat)
    | some numStr =>
      match pyInt? numStr with
      | none => (db, [(uid, msgInvalidFormat)], .invalidFormat)
      | some n =>
        let idx : Int := n - 1
        let pdfs := sortDesc (userDocs db uid)
        if pdfs.isEmpty || idx < 0 || idx ≥ (pdfs.length : Int) then
          (db, [(uid, msgInvalidSelection)], .invalidSelection)
        else
          match pdfs.get? idx.toNat with
          | none => (db, [(uid, msgInvalidSelection)], .invalidSelection)
          | some selected =>
            if pyStarts cmd "/delete" then
              let db1 := { db with docs := eraseFirst (fun d => d.id == selected.id) db.docs }
              let db2 := setUserState db1 uid "active" none
              (db2, [(uid, msgDeleted selected.filename)], .deleted selected.id)
            else
              let db1 := setUserState db uid "active" (some selected.id)
              (db1, [(uid, msgSelected selected.filename)], .selected selected.id)
  else if cmd == "/delete_all" then
    let n := countDocs db uid
    if n == 0 then (db, [(uid, msgNoPdfsToDeleteAll)], .deleteAllEmpty)
    else
      let db1 := { db with docs := db.docs.filter (fun d => !(d.user_id == uid)) }
      let db2 := setUserState db1 uid "active" none
      (db2, [(uid, msgAllDeleted)], .deletedAll n)
  else if cmd == "/report" then
    (setUserState db uid "awaiting_report" none, [(uid, msgReportStart)], .reportStarted)
  else
    (db, [(uid, msgUnknownCommand)], .unknown)

/-! ## `WebhookService.handle_text` -/

/-- Structured result of `handle_text`.  `qaTypeError question docId` marks
the branch that calls `get_answer(question, str(docId))` and then raises:
`get_answer` returns a string, so the subsequent `answer["answer"]`
subscript (line 322) is an unconditional `TypeError`, caught by the
handler's outer `except`, which sends the generic apology and re-raises as
`HTTPException(500)` — the payload records which question and document
reached the QA engine before the crash. -/
inductive TextResult where
  | command (c : CmdResult)
  | intentHandled
  | reportReceived (content : String)
  | qaTypeError (question : String) (docId : Nat)
  | welcomed
  | noPdfReminder
deriving DecidableEq, Repr

/-- The document-resolution step of `handle_text`: try the session's
`active_pdf_id` via primary-key lookup, otherwise fall back to the user's
most recently uploaded document (and remember whether the fallback fired). -/
def resolvePdf (db : DB) (uid : String) (activeId : Option Nat) : Option PDFDoc × Bool :=
  match activeId with
  | some i =>
    match docById db i with
    | some d => (some d, false)
    | none =>
      match latestDoc db uid with
      | some d => (some d, true)
      | none => (none, false)
  | none =>
    match latestDoc db uid with
    | some d => (some d, true)
    | none => (none, false)

/-- `WebhookService.handle_text`.  `qa question docId` is the injected
`LLMService.get_answer` collaborator (the answer string sent back to the
user).  Flow, in source order: lowercase the body; slash-commands go to
`handle_command`; special intents are answered; the session row is created
lazily (`state="new"`); the active document is resolved with fallback to the
latest upload (updating the session's `active_pdf_id` when the fallback is
used); a session in `awaiting_report` stores the text as a bug report and
resets `state` to `"active"`; otherwise the text is forwarded to
`get_answer` against the resolved document — but the QA answer is never
delivered: `get_answer` returns a string and line 322 subscripts it with
`["answer"]`, an unconditional `TypeError`, so the `except` block sends the
generic apology and raises `HTTPException(500)` (the state commits made
before the crash persist); with no resolvable document a
welcome/refresher message is sent. -/
def handleText (db : DB) (uid name body : String) (qa : String → Nat → String) :
    DB × Outbound × TextResult :=
  let message_text := pyLower body
  if pyStarts message_text "/" then
    let r := handleCommand db uid message_text
    (r.1, r.2.1, .command r.2.2)
  else
    match specialIntent message_text with
    | some reply => (db, [(uid, reply)], .intentHandled)
    | none =>
      let (db1, ust) :=
        match stateRowOf db uid with
        | some u => (db, u)
        | none =>
          let u : UserStateRow := ⟨uid, "new", none⟩
          ({ db with states := db.states ++ [u] }, u)
      let (pdfDoc, fellBack) := resolvePdf db1 uid ust.active_pdf_id
      let db2 :=
        match pdfDoc, fellBack with
        | some d, true => setUserState db1 uid ust.state (some d.id)
        | _, _ => db1
      if ust.state == "awaiting_report" then
        let db3 := { db2 with reports := db2.reports ++ [⟨uid, name, message_text⟩] }
        let db4 := setStateFieldOnly db3 uid "active"
        (db4, [(uid, msgReportThanks)], .reportReceived message_text)
      else
        match pdfDoc with
        | some d =>
          if message_text == "" then
            if ust.state == "new" then
              (setUserState db2 uid "welcomed" none, [(uid, msgWelcome name)], .welcomed)
            else
              (db2, [(uid, msgNoPdfYet)], .noPdfReminder)
          else
            let db3 :=
              if ust.state == "new" || ust.state == "welcomed" then
                setUserState db2 uid "active" (some d.id)
              else db2
            -- `answer = await self.llm_service.get_answer(...)` runs and
            -- returns a string; `answer["answer"]` then raises `TypeError`
            -- before `send_message` is called, so the collaborator's value
            -- is discarded and the `except` apology is the only outbound.
            let _answer := qa message_text d.id
            (db3, [(uid, msgTextError)], .qaTypeError message_text d.id)
        | none =>
          if ust.state == "new" then
            (setUserState db2 uid "welcomed" none, [(uid, msgWelcome name)], .welcomed)
          else
            (db2, [(uid, msgNoPdfYet)], .noPdfReminder)

/-! ## `WebhookService.handle_document`

The PDF download and the text-extraction primitive are external
collaborators.  `ex attempt` is the outcome of the extraction attempt with
the given zero-based index (`some text` on success, `none` when
`extract_text_from_bytes` raises); the downloaded byte count enters as
`size`. -/

/-- Structured result of `handle_document` (the returned status dict). -/
inductive DocResult where
  | unsupported
  | tooLarge
  | success (docId : Nat)
  | procError (docId : Nat)
deriving DecidableEq, Repr

/-- One inbound document event as seen by `handle_document`: sender,
`document["mime_type"]`, `document.get("filename")` and the downloaded
size, plus the per-attempt extraction outcome. -/
structure UploadEv where
  uid : String
  mime : String
  filename : Option String
  size : Nat
  ex : Nat → Option String

/-- `MAX_FILE_SIZE = 5 * 1024 * 1024`. -/
def maxFileSize : Nat := 5 * 1024 * 1024

/-- `document.get("filename") or "document.pdf"` (Python `or`: an absent or
empty filename falls back to the default). -/
def effectiveFilename (fn : Option String) : String :=
  match fn with
  | some s => if s == "" then "document.pdf" else s
  | none => "document.pdf"

/-- The retry loop of `handle_document` (`for attempt in range(max_retries + 1)`
with `max_retries = 2`), parameterized over the remaining attempt indices.
On a successful extraction: write `content`, call
`process_document(pdf_text, str(doc_id))`, set the session active, send the
completion message.  On the final failure: send the two failure messages
(the in-loop one and the one from the outer `except`) and report the error;
the document row is left in place. -/
def retryExtract (ops : RAGOps) (db : DB) (vs : VSMap) (uid fname : String) (docId : Nat)
    (ex : Nat → Option String) : List Nat → DB × VSMap × Outbound × DocResult
  | [] => (db, vs, [(uid, msgTriedTimes), (uid, msgDocError)], .procError docId)
  | attempt :: rest =>
    match ex attempt with
    | some text =>
      let upd := fun (d : PDFDoc) => { d with content := text }
      let db1 := { db with docs := mapFirst (fun d => d.id == docId) upd db.docs }
      let vs1 := processDocumentSync ops vs text (toString docId)
      let db2 := setUserState db1 uid "active" (some docId)
      (db2, vs1, [(uid, msgDoneProcessing fname)], .success docId)
    | none =>
      match rest with
      | [] => (db, vs, [(uid, msgTriedTimes), (uid, msgDocError)], .procError docId)
      | _ => retryExtract ops db vs uid fname docId ex rest

/-- The quota block of `handle_document`: when the user already has 10 or
more documents, delete the row returned by the oldest-by-`upload_date`
query.  The session rows are not touched. -/
def evictIfFull (db : DB) (uid : String) : DB :=
  if countDocs db uid ≥ 10 then
    match oldestDoc (userDocs db uid) with
    | some o => { db with docs := eraseFirst (fun d => d.id == o.id) db.docs }
    | none => db
  else db

/-- The `PDFDocument(...)` row created by `handle_document`: fresh primary
key, empty `content`, current timestamp. -/
def freshDoc (db : DB) (uid fname : String) : PDFDoc :=
  ⟨db.nextId, fname, "", db.nextDate, uid, none, false⟩

/-- `session.add(pdf_doc); session.commit()`: append the row and advance
the key/timestamp allocators. -/
def addDoc (db : DB) (d : PDFDoc) : DB :=
  { db with
    docs := db.docs ++ [d]
    nextId := db.nextId + 1
    nextDate := db.nextDate + 1 }

/-- `WebhookService.handle_document`: mime gate, "processing" notification,
size gate, quota eviction, creation of the new row with empty `content`,
then the extraction retry loop. -/
def handleDocument (ops : RAGOps) (db : DB) (vs : VSMap) (ev : UploadEv) :
    DB × VSMap × Outbound × DocResult :=
  if !(ev.mime == "application/pdf") then
    (db, vs, [(ev.uid, msgOnlyPdf)], .unsupported)
  else
    let fname := effectiveFilename ev.filename
    let procMsg := (ev.uid, msgProcessingPdf fname)
    if ev.size > maxFileSize then
      (db, vs, [procMsg, (ev.uid, msgTooLarge)], .tooLarge)
    else
      let db1 := evictIfFull db ev.uid
      let newDoc := freshDoc db1 ev.uid fname
      let db2 := addDoc db1 newDoc
      let r := retryExtract ops db2 vs ev.uid fname newDoc.id ev.ex [0, 1, 2]
      (r.1, r.2.1, procMsg :: r.2.2.1, r.2.2.2)

/-! ## `LLMService.get_answer` and the langgraph workflow

The compiled graph runs over the pydantic `State` of
`app/services/state.py`, whose only fields are `file_path`, `messages` and
`command` (pydantic silently drops the `document_valid` / `response`
keyword arguments that `validate_document` and `generate_response` pass to
`State(...)`).  `interrupt(...)` is executed without a checkpointer, so a
run that reaches it produces no result; both outcomes are modelled as
`none`. -/

/-- A workflow message (`Message` in `app/services/state.py`). -/
structure WFMsg where
  role : String
  content : String
deriving DecidableEq, Repr

/-- The pydantic `State`: exactly the three declared fields. -/
structure WFState where
  file_path : String
  messages : List WFMsg
  command : Option String
deriving DecidableEq, Repr

/-- The welcome text of `show_welcome` (abbreviated; it contains the marker
substring used by the duplicate check). -/
def wfWelcome : String := "Hello! I am your PDF Assistant."

/-- `LLMService.show_welcome`: append the welcome message when absent, then,
when the first user message has non-blank content, promote that content to
`file_path`. -/
def showWelcome (st : WFState) : WFState :=
  let shown := st.messages.any (fun m => m.role == "system" && pyContains m.content "your PDF Assistant")
  let msgs := if shown then st.messages
    else match st.messages with
      | [] => [⟨"system", wfWelcome⟩]
      | ms => ms ++ [⟨"system", wfWelcome⟩]
  match msgs.find? (fun m => m.role == "user") with
  | some m =>
    if !(pyStrip m.content == "") then ⟨pyStrip m.content, msgs, none⟩
    else ⟨"", msgs, none⟩
  | none => ⟨"", msgs, none⟩

/-- `LLMService.initialize_context`: with a file path, pass the state on;
without one it calls `interrupt(...)`, which has no checkpointer here, so
the run aborts (`none`). -/
def initializeContext (st : WFState) : Option WFState :=
  if st.file_path == "" then none else some st

/-- `LLMService.validate_document`, as exercised by the webhook flow: the
`file_path` reaching it is a database id or a question string, never an
existing filesystem path, so only the already-processed check
(`file_path in self._vectorstores`) and the `os.path.exists` failure branch
apply (the on-disk PDF branches of lines 82-127 concern the local CLI
workflow).  Either way the constructed `State(...)` drops the
`document_valid` / `response` keywords; observably only the messages can
change (the success message on the already-processed branch). -/
def validateDocument (vsKeys : List String) (st : WFState) : WFState :=
  if vsKeys.contains st.file_path then
    { st with messages := st.messages ++ [⟨"system", "The document has been successfully loaded and processed."⟩] }
  else
    { st with command := none }

/-- `LLMService.route_after_validation`: reads
`getattr(state, "document_valid", False)`; the field does not survive the
`State` schema, so the default `False` is always taken. -/
def routeAfterValidation (_st : WFState) : String :=
  let is_valid := false
  if is_valid then "request_question" else "handle_invalid_document"

/-- `LLMService.handle_invalid_document`: append the error message and reset
`file_path`. -/
def handleInvalidDocument (st : WFState) : WFState :=
  ⟨"", st.messages ++ [⟨"system", "Sorry, I could not process the document."⟩], none⟩

/-- One fuel-bounded run of the compiled graph of
`LLMService._create_workflow_graph`, started at `show_welcome`.
`request_question` calls `interrupt(...)` and aborts (`none`), as does
`initialize_context` without a file path. -/
def runGraph (vsKeys : List String) : Nat → String → WFState → Option WFState
  | 0, _, _ => none
  | fuel + 1, node, st =>
    if node == "show_welcome" then
      runGraph vsKeys fuel "initialize_context" (showWelcome st)
    else if node == "initialize_context" then
      match initializeContext st with
      | none => none
      | some st1 => runGraph vsKeys fuel "validate_document" st1
    else if node == "validate_document" then
      let st1 := validateDocument vsKeys st
      runGraph vsKeys fuel (routeAfterValidation st1) st1
    else if node == "request_question" then none
    else if node == "handle_invalid_document" then
      runGraph vsKeys fuel "initialize_context" (handleInvalidDocument st)
    else none

/-- `getattr(result, "response", None)`: the `State` schema has no
`response` field, so the attribute read always yields `None`. -/
def responseAttr (_st : WFState) : Option String := none

/-- The answer `get_answer` returns when the fallback lookup misses. -/
def msgNoRelevantInfo : String := "No relevant information found in the document."

/-- `LLMService.get_answer`: `await self.workflow.ainvoke(initial_state)`
inside the `try` of lines 349-368.  The graph is compiled without a
checkpointer, so when a run reaches `interrupt(...)` (`runGraph … = none`)
the call does not return a paused state — it raises, and the `except` of
lines 369-371 catches the exception and returns the
`"Error processing your question: …"` string; the fallback lookup of
lines 352-368 (the `some` branch below: `getattr` the absent `response`
field, then consult the in-memory `_vectorstores` dictionary) only runs
when `ainvoke` returns normally.  The persisted Document Store is not an
input of this function in the source; nothing is ever rebuilt and the
returned dictionary is unchanged. -/
def getAnswer (ops : RAGOps) (vs : VSMap) (question docId : String) : String × VSMap :=
  match runGraph (vs.map (fun p => p.1)) 25 "show_welcome" ⟨docId, [⟨"user", question⟩], none⟩ with
  | none => (msgWorkflowError, vs)
  | some result =>
    match responseAttr result with
    | some r => (r, vs)
    | none =>
      match vsGet vs docId with
      | some idx => (ops.gen (joinContext (relevantChunks ops idx question)) question, vs)
      | none => (msgNoRelevantInfo, vs)

/-- Modelled from the spec: the resolution order of §4.2 —
"(a) if an in-memory Retrieval Index entry exists for `document_id`, use
it; (b) otherwise, load the Document's `extracted_text` from the Document
Store and rebuild the index synchronously (same chunk/embed procedure as
ingestion) before answering; (c) if the Document has no `extracted_text`
(ingestion never completed), return a declinative answer without attempting
retrieval."  Stated here only for comparison with `getAnswer`; the rebuild
of clause (b) has no counterpart in the source. -/
def getAnswerSpec (ops : RAGOps) (db : DB) (vs : VSMap) (question : String) (docId : Nat) :
    String × VSMap :=
  match vsGet vs (toString docId) with
  | some idx => (ops.gen (joinContext (relevantChunks ops idx question)) question, vs)
  | none =>
    match docById db docId with
    | some d =>
      if d.content == "" then (msgNoRelevantInfo, vs)
      else
        let vs1 := processDocumentSync ops vs d.content (toString docId)
        match vsGet vs1 (toString docId) with
        | some idx => (ops.gen (joinContext (relevantChunks ops idx question)) question, vs1)
        | none => (msgNoRelevantInfo, vs1)
    | none => (msgNoRelevantInfo, vs)

/-! ## The legacy Meta-format webhook handler (`app/main.py`, `POST /webhook`) -/

/-- The normalized message produced by `extract_message_data` in
`app/main.py`, together with the outcome of the external byte fetch
(`pdf_processor.get_pdf_content`, `some text` on success). -/
structure InboundEv where
  mtype : String
  sender : String
  name : String
  text : Option String
  docMime : Option String
  docFilename : Option String
  docFileId : Option String
  timestamp : String
  message_id : Option String
  fetched : Option String

/-- Structured result of the `main.py` webhook handler. -/
inductive MainResult where
  | alreadyProcessed
  | docStored (docId : Nat)
  | docFetchError (docId : Nat)
  | textAnswered
  | textGreeting
  | genericSuccess
deriving DecidableEq, Repr

/-- Body of the `main.py` handler after the idempotency gate: the document
branch (create the row, fetch and process the content, confirm) and the
text branch (answer against the latest upload or greet). -/
def mainHandle (ops : RAGOps) (db : DB) (vs : VSMap) (ev : InboundEv) :
    DB × VSMap × Outbound × MainResult :=
  if ev.mtype == "document" && ev.docMime == some "application/pdf" then
    let newDoc : PDFDoc :=
      ⟨db.nextId, (ev.docFilename.getD ""), "", db.nextDate, ev.sender, ev.docFileId, false⟩
    let db1 := { db with
      docs := db.docs ++ [newDoc]
      nextId := db.nextId + 1
      nextDate := db.nextDate + 1 }
    match ev.fetched with
    | none => (db1, vs, [], .docFetchError newDoc.id)
    | some content =>
      let vs1 := processDocumentSync ops vs content (toString newDoc.id)
      let upd := fun (d : PDFDoc) => { d with content := content }
      let db2 := { db1 with docs := mapFirst (fun d => d.id == newDoc.id) upd db1.docs }
      (db2, vs1, [(ev.sender, "Received your PDF. Processing...")], .docStored newDoc.id)
  else if ev.mtype == "text" then
    let message_text := pyLower (ev.text.getD "")
    match latestDoc db ev.sender with
    | some d =>
      if !(message_text == "") then
        let answer := (getAnswer ops vs message_text (toString d.id)).1
        (db, vs, [(ev.sender, answer)], .textAnswered)
      else
        (db, vs, [(ev.sender, "Hi " ++ ev.name ++ "! Please send me a PDF file first.")], .textGreeting)
    | none =>
      (db, vs, [(ev.sender, "Hi " ++ ev.name ++ "! Please send me a PDF file first.")], .textGreeting)
  else
    (db, vs, [], .genericSuccess)

/-- The `POST /webhook` handler of `app/main.py`: when the event carries a
`message_id`, look it up in the Processed Message Records and return
`already_processed` without any side effect on a hit; otherwise record the
id first and then handle the message. -/
def mainWebhook (ops : RAGOps) (db : DB) (vs : VSMap) (ev : InboundEv) :
    DB × VSMap × Outbound × MainResult :=
  match ev.message_id with
  | some mid =>
    if db.processedIds.contains mid then (db, vs, [], .alreadyProcessed)
    else
      let db1 := { db with processedIds := db.processedIds ++ [mid] }
      mainHandle ops db1 vs ev
  | none => mainHandle ops db vs ev

/-! ## The mounted Twilio webhook route (`app/routes/webhook.py`)

`create_app` in `app/__init__.py` registers only this router; it parses the
Twilio form and calls `WebhookService.handle_document` / `handle_text`
directly.  No Processed Message Record is consulted or written (the
`MessageSid` field is kept for logging only). -/

/-- Delete every occurrence of `pat` (Python `str.replace(pat, "")`). -/
def removeSubGo (pat : List Char) : Nat → List Char → List Char
  | _, [] => []
  | 0, cs => cs
  | fuel + 1, c :: t =>
    if pat.isPrefixOf (c :: t) then removeSubGo pat fuel (List.drop (pat.length - 1) t)
    else c :: removeSubGo pat fuel t

/-- Python `s.replace(pat, "")` for a non-empty pattern. -/
def pyReplaceDel (s pat : String) : String :=
  String.mk (removeSubGo pat.toList s.toList.length s.toList)

/-- Python `s.lstrip("+")`. -/
def pyLstripPlus (s : String) : String :=
  String.mk (s.toList.dropWhile (fun c => c = '+'))

/-- The Twilio form fields the route reads, with the external download size
and per-attempt extraction outcomes for the media path. -/
structure TwilioForm where
  fromField : Option String
  waId : Option String
  profileName : String
  numMedia : Nat
  mediaContentType : String
  messageSid : Option String
  body : Option String
  size : Nat
  ex : Nat → Option String

/-- Structured result of the Twilio route. -/
inductive TwilioResult where
  | badRequest
  | mediaHandled (r : DocResult)
  | noContent
  | textHandled (r : TextResult)
deriving DecidableEq, Repr

/-- `wa_id = form.get("WaId") or form["From"].replace("whatsapp:", "").lstrip("+")`. -/
def twilioWaId (f : TwilioForm) (fr : String) : String :=
  match f.waId with
  | some w => if w == "" then pyLstripPlus (pyReplaceDel fr "whatsapp:") else w
  | none => pyLstripPlus (pyReplaceDel fr "whatsapp:")

/-- The `POST /webhook` route of `app/routes/webhook.py`: reject a form
without `From`; media goes to `handle_document` (with an empty filename in
the message payload), non-empty text to `handle_text`; there is no
idempotency check anywhere on this path. -/
def twilioWebhook (ops : RAGOps) (db : DB) (vs : VSMap) (f : TwilioForm)
    (qa : String → Nat → String) : DB × VSMap × Outbound × TwilioResult :=
  match f.fromField with
  | none => (db, vs, [], .badRequest)
  | some fr =>
    let wa_id := twilioWaId f fr
    if !(f.numMedia == 0) then
      let ev : UploadEv := ⟨wa_id, f.mediaContentType, some "", f.size, f.ex⟩
      let r := handleDocument ops db vs ev
      (r.1, r.2.1, r.2.2.1, .mediaHandled r.2.2.2)
    else
      match f.body with
      | none => (db, vs, [], .noContent)
      | some b =>
        if b == "" then (db, vs, [], .noContent)
        else
          let r := handleText db wa_id f.profileName b qa
          (r.1, vs, r.2.1, .textHandled r.2.2)

/-! ## Reachable stores and upload sequences -/

/-- Apply a sequence of inbound document uploads through
`WebhookService.handle_document`. -/
def applyUploads (ops : RAGOps) : DB × VSMap → List UploadEv → DB × VSMap
  | st, [] => st
  | (db, vs), ev :: evs =>
    let r := handleDocument ops db vs ev
    applyUploads ops (r.1, r.2.1) evs

/-- Allocator sanity of a store: primary keys are unique and below the next
fresh key, and upload timestamps are unique and below the next timestamp.
Holds in every store reachable from `DB.empty`. -/
def GoodDB (db : DB) : Prop :=
  (db.docs.map (fun d => d.id)).Nodup ∧
  (∀ d ∈ db.docs, d.id < db.nextId) ∧
  (db.docs.map (fun d => d.upload_date)).Nodup ∧
  (∀ d ∈ db.docs, d.upload_date < db.nextDate)

instance (db : DB) : Decidable (GoodDB db) := by
  unfold GoodDB; infer_instance

/-! ## Helper lemmas about the row-level operations -/

theorem eraseFirst_sublist (p : α → Bool) : ∀ l : List α, List.Sublist (eraseFirst p l) l
  | [] => List.Sublist.refl _
  | x :: xs => by
    cases hx : p x
    · simpa [eraseFirst, hx] using (eraseFirst_sublist p xs).cons₂ x
    · simp only [eraseFirst, hx, if_true]
      exact List.sublist_cons_self x xs

theorem mem_eraseFirst_of_not {p : α → Bool} {x : α} :
    ∀ {l : List α}, x ∈ l → p x = false → x ∈ eraseFirst p l
  | [], h, _ => absurd h (List.not_mem_nil x)
  | a :: as, h, hx => by
    cases ha : p a
    · rcases List.mem_cons.mp h with rfl | hmem
      · simp [eraseFirst, ha]
      · simp only [eraseFirst, ha, Bool.false_eq_true, if_false, List.mem_cons]
        exact Or.inr (mem_eraseFirst_of_not hmem hx)
    · rcases List.mem_cons.mp h with rfl | hmem
      · rw [hx] at ha; exact absurd ha (by simp)
      · simpa [eraseFirst, ha] using hmem

theorem countP_eraseFirst {p q : α → Bool} :
    ∀ {l : List α}, (∀ x ∈ l, p x = true → q x = true) → (∃ x ∈ l, p x = true) →
      (eraseFirst p l).countP q + 1 = l.countP q
  | [], _, hex => absurd hex (by simp)
  | a :: as, himp, hex => by
    cases ha : p a
    · have hex' : ∃ x ∈ as, p x = true := by
        rcases hex with ⟨x, hx, hpx⟩
        rcases List.mem_cons.mp hx with rfl | hmem
        · rw [hpx] at ha; exact absurd ha (by simp)
        · exact ⟨x, hmem, hpx⟩
      have himp' : ∀ x ∈ as, p x = true → q x = true :=
        fun x hx => himp x (List.mem_cons_of_mem a hx)
      have ih := countP_eraseFirst himp' hex'
      simp only [eraseFirst, ha, Bool.false_eq_true, if_false, List.countP_cons]
      omega
    · have hqa : q a = true := himp a (List.mem_cons_self a as) ha
      simp [eraseFirst, ha, List.countP_cons, hqa]

theorem countP_eraseFirst_le (p q : α → Bool) (l : List α) :
    (eraseFirst p l).countP q ≤ l.countP q :=
  (eraseFirst_sublist p l).countP_le q

theorem oldestDoc_isSome : ∀ {l : List PDFDoc}, l ≠ [] → (oldestDoc l).isSome
  | [], h => absurd rfl h
  | d :: ds, _ => by
    unfold oldestDoc
    cases oldestDoc ds with
    | none => simp
    | some o => by_cases hle : d.upload_date ≤ o.upload_date <;> simp [hle]

theorem oldestDoc_mem : ∀ {l : List PDFDoc} {o : PDFDoc}, oldestDoc l = some o → o ∈ l
  | [], _, h => by simp [oldestDoc] at h
  | d :: ds, o, h => by
    rw [oldestDoc] at h
    cases hds : oldestDoc ds with
    | none =>
      rw [hds] at h
      simp only [Option.some.injEq] at h
      simp [h]
    | some o' =>
      rw [hds] at h
      by_cases hle : d.upload_date ≤ o'.upload_date
      · simp only [hle, if_pos, Option.some.injEq] at h
        simp [h]
      · simp only [hle, if_neg, not_false_iff, Option.some.injEq] at h
        exact List.mem_cons_of_mem d (oldestDoc_mem (h ▸ hds))

theorem oldestDoc_le : ∀ {l : List PDFDoc} {o : PDFDoc}, oldestDoc l = some o →
    ∀ d ∈ l, o.upload_date ≤ d.upload_date
  | [], _, h => by simp [oldestDoc] at h
  | d :: ds, o, h => by
    rw [oldestDoc] at h
    cases hds : oldestDoc ds with
    | none =>
      rw [hds] at h
      simp only [Option.some.injEq] at h
      subst h
      intro e he
      rcases List.mem_cons.mp he with rfl | hmem
      · exact le_refl _
      · exfalso
        have : ds ≠ [] := by
          intro hnil; rw [hnil] at hmem; exact List.not_mem_nil e hmem
        have := oldestDoc_isSome this
        rw [hds] at this
        simp at this
    | some o' =>
      rw [hds] at h
      have ih := oldestDoc_le hds
      by_cases hle : d.upload_date ≤ o'.upload_date
      · simp only [hle, if_pos, Option.some.injEq] at h
        subst h
        intro e he
        rcases List.mem_cons.mp he with rfl | hmem
        · exact le_refl _
        · exact le_trans hle (ih e hmem)
      · simp only [hle, if_neg, not_false_iff, Option.some.injEq] at h
        subst h
        intro e he
        rcases List.mem_cons.mp he with rfl | hmem
        · exact le_of_not_le hle
        · exact ih e hmem

theorem mapFirst_map_eq {p : α → Bool} {f : α → α} {g : α → β}
    (h : ∀ x, g (f x) = g x) : ∀ l : List α, (mapFirst p f l).map g = l.map g
  | [] => rfl
  | x :: xs => by
    cases hx : p x
    · simp [mapFirst, hx, mapFirst_map_eq h xs]
    · simp [mapFirst, hx, h x]

theorem countP_mapFirst {p : α → Bool} {f : α → α} {q : α → Bool}
    (h : ∀ x, q (f x) = q x) : ∀ l : List α, (mapFirst p f l).countP q = l.countP q
  | [] => rfl
  | x :: xs => by
    cases hx : p x
    · simp [mapFirst, hx, List.countP_cons, countP_mapFirst h xs]
    · simp [mapFirst, hx, List.countP_cons, h x]

theorem mem_mapFirst {p : α → Bool} {f : α → α} {x : α} :
    ∀ {l : List α}, x ∈ mapFirst p f l → x ∈ l ∨ ∃ y ∈ l, x = f y
  | [], h => by simp [mapFirst] at h
  | a :: as, h => by
    cases ha : p a
    · simp only [mapFirst, ha, Bool.false_eq_true, if_false, List.mem_cons] at h
      rcases h with rfl | hmem
      · exact Or.inl (List.mem_cons_self x as)
      · rcases mem_mapFirst hmem with h1 | ⟨y, hy, hxy⟩
        · exact Or.inl (List.mem_cons_of_mem a h1)
        · exact Or.inr ⟨y, List.mem_cons_of_mem a hy, hxy⟩
    · simp only [mapFirst, ha, if_true, List.mem_cons] at h
      rcases h with rfl | hmem
      · exact Or.inr ⟨a, List.mem_cons_self a as, rfl⟩
      · exact Or.inl (List.mem_cons_of_mem a hmem)

/-- In a list with `Nodup` ids, a member is counted exactly once by its id. -/
theorem countP_id_unique {l : List PDFDoc} {o : PDFDoc}
    (hn : (l.map (fun d => d.id)).Nodup) (ho : o ∈ l) :
    l.countP (fun d => d.id == o.id) = 1 := by
  induction l with
  | nil => simp at ho
  | cons a as ih =>
    simp only [List.map_cons, List.nodup_cons] at hn
    rcases List.mem_cons.mp ho with h1 | hmem
    · subst h1
      have hz : as.countP (fun d => d.id == o.id) = 0 := by
        rw [List.countP_eq_zero]
        intro x hx
        simp only [beq_iff_eq]
        intro hid
        exact hn.1 (hid ▸ List.mem_map_of_mem (fun d => d.id) hx)
      simp [List.countP_cons, hz]
    · have hne : ¬((fun d => d.id == o.id) a = true) := by
        simp only [beq_iff_eq]
        intro hid
        apply hn.1
        rw [hid]
        exact List.mem_map_of_mem (fun d => d.id) hmem
      simp only [List.countP_cons, hne, if_false]
      simpa using ih hn.2 hmem

theorem mem_mapFirst_of_not {p : α → Bool} {f : α → α} {x : α} :
    ∀ {l : List α}, x ∈ l → p x = false → x ∈ mapFirst p f l
  | [], h, _ => absurd h (List.not_mem_nil x)
  | a :: as, h, hx => by
    cases ha : p a
    · rcases List.mem_cons.mp h with rfl | hmem
      · simp [mapFirst, ha]
      · simp only [mapFirst, ha, Bool.false_eq_true, if_false, List.mem_cons]
        exact Or.inr (mem_mapFirst_of_not hmem hx)
    · rcases List.mem_cons.mp h with rfl | hmem
      · rw [hx] at ha; exact absurd ha (by simp)
      · simp only [mapFirst, ha, if_true, List.mem_cons]
        exact Or.inr hmem

/-! ## Session updates touch only the session rows -/

theorem setUserState_docs (db : DB) (uid st : String) (a : Option Nat) :
    (setUserState db uid st a).docs = db.docs := by
  unfold setUserState
  cases stateRowOf db uid <;> rfl

theorem setUserState_nextId (db : DB) (uid st : String) (a : Option Nat) :
    (setUserState db uid st a).nextId = db.nextId := by
  unfold setUserState
  cases stateRowOf db uid <;> rfl

theorem setUserState_nextDate (db : DB) (uid st : String) (a : Option Nat) :
    (setUserState db uid st a).nextDate = db.nextDate := by
  unfold setUserState
  cases stateRowOf db uid <;> rfl

theorem setUserState_reports (db : DB) (uid st : String) (a : Option Nat) :
    (setUserState db uid st a).reports = db.reports := by
  unfold setUserState
  cases stateRowOf db uid <;> rfl

/-! ## Shape of the extraction retry loop -/

theorem retryExtract_nil (ops : RAGOps) (db : DB) (vs : VSMap) (uid fname : String)
    (docId : Nat) (ex : Nat → Option String) :
    retryExtract ops db vs uid fname docId ex [] =
      (db, vs, [(uid, msgTriedTimes), (uid, msgDocError)], .procError docId) := rfl

theorem retryExtract_cons (ops : RAGOps) (db : DB) (vs : VSMap) (uid fname : String)
    (docId : Nat) (ex : Nat → Option String) (attempt : Nat) (rest : List Nat) :
    retryExtract ops db vs uid fname docId ex (attempt :: rest) =
      (match ex attempt with
       | some text =>
         let upd := fun (d : PDFDoc) => { d with content := text }
         let db1 := { db with docs := mapFirst (fun d => d.id == docId) upd db.docs }
         let vs1 := processDocumentSync ops vs text (toString docId)
         let db2 := setUserState db1 uid "active" (some docId)
         (db2, vs1, [(uid, msgDoneProcessing fname)], .success docId)
       | none =>
         match rest with
         | [] => (db, vs, [(uid, msgTriedTimes), (uid, msgDocError)], .procError docId)
         | _ => retryExtract ops db vs uid fname docId ex rest) := rfl

/-- Whatever the extraction outcomes, the retry loop leaves the document
rows alone or updates exactly the `content` of the row it was given, and it
never touches the key/timestamp allocators. -/
theorem retryExtract_shape (ops : RAGOps) (vs : VSMap) (uid fname : String) (docId : Nat)
    (ex : Nat → Option String) :
    ∀ (l : List Nat) (db : DB),
      ((retryExtract ops db vs uid fname docId ex l).1.docs = db.docs ∨
        ∃ t, (retryExtract ops db vs uid fname docId ex l).1.docs =
          mapFirst (fun d => d.id == docId) (fun d => { d with content := t }) db.docs) ∧
      (retryExtract ops db vs uid fname docId ex l).1.nextId = db.nextId ∧
      (retryExtract ops db vs uid fname docId ex l).1.nextDate = db.nextDate
  | [], db => by simp [retryExtract_nil]
  | a :: rest, db => by
    rw [retryExtract_cons]
    cases hx : ex a with
    | some t =>
      refine ⟨Or.inr ⟨t, ?_⟩, ?_, ?_⟩
      · simp [setUserState_docs]
      · simp [setUserState_nextId]
      · simp [setUserState_nextDate]
    | none =>
      cases rest with
      | nil => simp
      | cons b bs => exact retryExtract_shape ops vs uid fname docId ex (b :: bs) db

/-! ## Projections of the ingestion steps -/

theorem evictIfFull_nextId (db : DB) (uid : String) :
    (evictIfFull db uid).nextId = db.nextId := by
  unfold evictIfFull
  by_cases h : countDocs db uid ≥ 10
  · simp only [h, if_true]
    cases oldestDoc (userDocs db uid) <;> rfl
  · simp [h]

theorem evictIfFull_nextDate (db : DB) (uid : String) :
    (evictIfFull db uid).nextDate = db.nextDate := by
  unfold evictIfFull
  by_cases h : countDocs db uid ≥ 10
  · simp only [h, if_true]
    cases oldestDoc (userDocs db uid) <;> rfl
  · simp [h]

theorem evictIfFull_states (db : DB) (uid : String) :
    (evictIfFull db uid).states = db.states := by
  unfold evictIfFull
  by_cases h : countDocs db uid ≥ 10
  · simp only [h, if_true]
    cases oldestDoc (userDocs db uid) <;> rfl
  · simp [h]

theorem evictIfFull_docs_sublist (db : DB) (uid : String) :
    List.Sublist (evictIfFull db uid).docs db.docs := by
  unfold evictIfFull
  by_cases h : countDocs db uid ≥ 10
  · simp only [h, if_true]
    cases oldestDoc (userDocs db uid) with
    | none => exact List.Sublist.refl _
    | some o => exact eraseFirst_sublist _ _
  · simp only [h, if_false]
    exact List.Sublist.refl _

theorem countDocs_eq_countP (db : DB) (uid : String) :
    countDocs db uid = db.docs.countP (fun d => d.user_id == uid) := by
  simp [countDocs, userDocs, List.countP_eq_length_filter]

theorem mapFirst_append_of_all_false {p : α → Bool} {f : α → α} :
    ∀ {l : List α}, (∀ y ∈ l, p y = false) → ∀ l' : List α,
      mapFirst p f (l ++ l') = l ++ mapFirst p f l'
  | [], _, l' => rfl
  | a :: as, h, l' => by
    have ha : p a = false := h a (List.mem_cons_self a as)
    simp only [List.cons_append, mapFirst, ha, Bool.false_eq_true, if_false, List.cons.injEq,
      true_and]
    exact mapFirst_append_of_all_false (fun y hy => h y (List.mem_cons_of_mem a hy)) l'

theorem applyUploads_nil (ops : RAGOps) (st : DB × VSMap) :
    applyUploads ops st [] = st := by
  cases st; rfl

theorem applyUploads_cons (ops : RAGOps) (db : DB) (vs : VSMap) (ev : UploadEv)
    (evs : List UploadEv) :
    applyUploads ops (db, vs) (ev :: evs) =
      applyUploads ops ((handleDocument ops db vs ev).1, (handleDocument ops db vs ev).2.1) evs :=
  rfl

/-- The gates of claim C6: accepted mime type and size within the ceiling. -/
def passesGates (ev : UploadEv) : Prop :=
  ev.mime = "application/pdf" ∧ ev.size ≤ maxFileSize

instance (ev : UploadEv) : Decidable (passesGates ev) := by
  unfold passesGates; infer_instance

theorem evictIfFull_eq_of_full {db : DB} {uid : String} {o : PDFDoc}
    (hq : countDocs db uid ≥ 10) (ho : oldestDoc (userDocs db uid) = some o) :
    evictIfFull db uid = { db with docs := eraseFirst (fun d => d.id == o.id) db.docs } := by
  unfold evictIfFull
  rw [if_pos hq, ho]

theorem evictIfFull_eq_of_not_full {db : DB} {uid : String}
    (hq : ¬ countDocs db uid ≥ 10) : evictIfFull db uid = db := by
  unfold evictIfFull
  rw [if_neg hq]

theorem handleDocument_bad_mime {ops : RAGOps} {db : DB} {vs : VSMap} {ev : UploadEv}
    (hm : (ev.mime == "application/pdf") = false) :
    handleDocument ops db vs ev = (db, vs, [(ev.uid, msgOnlyPdf)], .unsupported) := by
  unfold handleDocument
  rw [hm]
  rfl

theorem handleDocument_too_large {ops : RAGOps} {db : DB} {vs : VSMap} {ev : UploadEv}
    (hm : (ev.mime == "application/pdf") = true) (hs : ev.size > maxFileSize) :
    handleDocument ops db vs ev =
      (db, vs, [(ev.uid, msgProcessingPdf (effectiveFilename ev.filename)),
        (ev.uid, msgTooLarge)], .tooLarge) := by
  unfold handleDocument
  rw [hm]
  simp [hs]

theorem handleDocument_gated {ops : RAGOps} {db : DB} {vs : VSMap} {ev : UploadEv}
    (hm : (ev.mime == "application/pdf") = true) (hs : ¬ ev.size > maxFileSize) :
    handleDocument ops db vs ev =
      (let fname := effectiveFilename ev.filename
       let db1 := evictIfFull db ev.uid
       let nd := freshDoc db1 ev.uid fname
       let db2 := addDoc db1 nd
       let r := retryExtract ops db2 vs ev.uid fname nd.id ev.ex [0, 1, 2]
       (r.1, r.2.1, (ev.uid, msgProcessingPdf fname) :: r.2.2.1, r.2.2.2)) := by
  unfold handleDocument
  rw [hm]
  simp [hs]

/-- `GoodDB` only looks at the document rows and the allocators; content
updates through `mapFirst` do not disturb it. -/
theorem goodDB_congr {db db' : DB} (h : GoodDB db)
    (hd : db'.docs = db.docs ∨
      ∃ t docId, db'.docs =
        mapFirst (fun d => d.id == docId) (fun d => { d with content := t }) db.docs)
    (hni : db'.nextId = db.nextId) (hnd : db'.nextDate = db.nextDate) : GoodDB db' := by
  obtain ⟨h1, h2, h3, h4⟩ := h
  rcases hd with hd | ⟨t, docId, hd⟩
  · exact ⟨by rw [hd]; exact h1, by rw [hd, hni]; exact h2,
      by rw [hd]; exact h3, by rw [hd, hnd]; exact h4⟩
  · refine ⟨?_, ?_, ?_, ?_⟩
    · rw [hd]
      have hmap : (mapFirst (fun d => d.id == docId)
          (fun d => { d with content := t }) db.docs).map (fun d => d.id)
            = db.docs.map (fun d => d.id) :=
        mapFirst_map_eq (p := fun d => d.id == docId)
          (f := fun d => { d with content := t }) (g := fun d => d.id)
          (fun x => rfl) db.docs
      rw [hmap]
      exact h1
    · intro d hdm
      rw [hd] at hdm
      rw [hni]
      rcases mem_mapFirst hdm with hmem | ⟨y, hy, hdy⟩
      · exact h2 d hmem
      · rw [hdy]
        exact h2 y hy
    · rw [hd]
      have hmap : (mapFirst (fun d => d.id == docId)
          (fun d => { d with content := t }) db.docs).map (fun d => d.upload_date)
            = db.docs.map (fun d => d.upload_date) :=
        mapFirst_map_eq (p := fun d => d.id == docId)
          (f := fun d => { d with content := t }) (g := fun d => d.upload_date)
          (fun x => rfl) db.docs
      rw [hmap]
      exact h3
    · intro d hdm
      rw [hd] at hdm
      rw [hnd]
      rcases mem_mapFirst hdm with hmem | ⟨y, hy, hdy⟩
      · exact h4 d hmem
      · rw [hdy]
        exact h4 y hy

theorem goodDB_evict {db : DB} (uid : String) (h : GoodDB db) : GoodDB (evictIfFull db uid) := by
  obtain ⟨h1, h2, h3, h4⟩ := h
  have hsub := evictIfFull_docs_sublist db uid
  refine ⟨?_, ?_, ?_, ?_⟩
  · exact (hsub.map (fun d => d.id)).nodup h1
  · intro d hd
    rw [evictIfFull_nextId]
    exact h2 d (hsub.subset hd)
  · exact (hsub.map (fun d => d.upload_date)).nodup h3
  · intro d hd
    rw [evictIfFull_nextDate]
    exact h4 d (hsub.subset hd)

theorem goodDB_addFresh {db : DB} (uid fname : String) (h : GoodDB db) :
    GoodDB (addDoc db (freshDoc db uid fname)) := by
  obtain ⟨h1, h2, h3, h4⟩ := h
  refine ⟨?_, ?_, ?_, ?_⟩
  · simp only [addDoc, freshDoc, List.map_append, List.map_cons, List.map_nil]
    rw [List.nodup_append]
    refine ⟨h1, List.nodup_singleton _, ?_⟩
    intro a ha hb
    simp only [List.mem_singleton] at hb
    rcases List.mem_map.mp ha with ⟨d, hd, hid⟩
    have := h2 d hd
    omega
  · intro d hd
    simp only [addDoc, List.mem_append, List.mem_singleton] at hd
    rcases hd with hd | rfl
    · have := h2 d hd
      simp only [addDoc]
      omega
    · simp [addDoc, freshDoc]
  · simp only [addDoc, freshDoc, List.map_append, List.map_cons, List.map_nil]
    rw [List.nodup_append]
    refine ⟨h3, List.nodup_singleton _, ?_⟩
    intro a ha hb
    simp only [List.mem_singleton] at hb
    rcases List.mem_map.mp ha with ⟨d, hd, hid⟩
    have := h4 d hd
    omega
  · intro d hd
    simp only [addDoc, List.mem_append, List.mem_singleton] at hd
    rcases hd with hd | rfl
    · have := h4 d hd
      simp only [addDoc]
      omega
    · simp [addDoc, freshDoc]

theorem countP_evictIfFull_full {db : DB} {uid : String}
    (hGood : GoodDB db) (hq : countDocs db uid ≥ 10) :
    (evictIfFull db uid).docs.countP (fun d => d.user_id == uid) + 1
      = db.docs.countP (fun d => d.user_id == uid) := by
  have hne : userDocs db uid ≠ [] := by
    intro h
    rw [countDocs, h] at hq
    simp at hq
  obtain ⟨o, ho⟩ := Option.isSome_iff_exists.mp (oldestDoc_isSome hne)
  have hoMem : o ∈ userDocs db uid := oldestDoc_mem ho
  have hoDoc : o ∈ db.docs := (List.mem_filter.mp hoMem).1
  have hoUser : (o.user_id == uid) = true := (List.mem_filter.mp hoMem).2
  rw [evictIfFull_eq_of_full hq ho]
  apply countP_eraseFirst
  · intro x hx hpx
    have hxid : x.id = o.id := by simpa using hpx
    have hxo : x = o := List.inj_on_of_nodup_map hGood.1 hx hoDoc hxid
    rw [hxo]
    exact hoUser
  · exact ⟨o, hoDoc, by simp⟩

/-- One upload step preserves the allocator sanity and the 10-document
bound for every user. -/
theorem handleDocument_inv (ops : RAGOps) (db : DB) (vs : VSMap) (ev : UploadEv)
    (hGood : GoodDB db) (hAll : ∀ u, countDocs db u ≤ 10) :
    GoodDB (handleDocument ops db vs ev).1 ∧
      ∀ u, countDocs (handleDocument ops db vs ev).1 u ≤ 10 := by
  cases hm : (ev.mime == "application/pdf") with
  | false =>
    rw [handleDocument_bad_mime hm]
    exact ⟨hGood, hAll⟩
  | true =>
    by_cases hs : ev.size > maxFileSize
    · rw [handleDocument_too_large hm hs]
      exact ⟨hGood, hAll⟩
    · rw [handleDocument_gated hm hs]
      dsimp only
      obtain ⟨hdocs, hni, hnd2⟩ :=
        retryExtract_shape ops vs ev.uid (effectiveFilename ev.filename)
          (freshDoc (evictIfFull db ev.uid) ev.uid (effectiveFilename ev.filename)).id ev.ex
          [0, 1, 2]
          (addDoc (evictIfFull db ev.uid)
            (freshDoc (evictIfFull db ev.uid) ev.uid (effectiveFilename ev.filename)))
      have hGood1 : GoodDB (evictIfFull db ev.uid) := goodDB_evict ev.uid hGood
      have hGood2 : GoodDB (addDoc (evictIfFull db ev.uid)
          (freshDoc (evictIfFull db ev.uid) ev.uid (effectiveFilename ev.filename))) :=
        goodDB_addFresh ev.uid (effectiveFilename ev.filename) hGood1
      constructor
      · refine goodDB_congr hGood2 ?_ hni hnd2
        rcases hdocs with h | ⟨t, h⟩
        · exact Or.inl h
        · exact Or.inr ⟨t, _, h⟩
      · intro u
        rw [countDocs_eq_countP]
        have hcp : (retryExtract ops
              (addDoc (evictIfFull db ev.uid)
                (freshDoc (evictIfFull db ev.uid) ev.uid (effectiveFilename ev.filename))) vs
              ev.uid (effectiveFilename ev.filename)
              (freshDoc (evictIfFull db ev.uid) ev.uid (effectiveFilename ev.filename)).id ev.ex
              [0, 1, 2]).1.docs.countP (fun d => d.user_id == u) =
            (addDoc (evictIfFull db ev.uid)
              (freshDoc (evictIfFull db ev.uid) ev.uid
                (effectiveFilename ev.filename))).docs.countP (fun d => d.user_id == u) := by
          rcases hdocs with h | ⟨t, h⟩
          · rw [h]
          · rw [h]
            exact countP_mapFirst
              (p := fun (d : PDFDoc) => d.id ==
                (freshDoc (evictIfFull db ev.uid) ev.uid (effectiveFilename ev.filename)).id)
              (f := fun (d : PDFDoc) => { d with content := t })
              (q := fun (d : PDFDoc) => d.user_id == u) (fun x => rfl) _
        rw [hcp]
        have happ : (addDoc (evictIfFull db ev.uid)
            (freshDoc (evictIfFull db ev.uid) ev.uid (effectiveFilename ev.filename))).docs =
            (evictIfFull db ev.uid).docs ++
              [freshDoc (evictIfFull db ev.uid) ev.uid (effectiveFilename ev.filename)] := rfl
        rw [happ, List.countP_append]
        by_cases hu : ev.uid = u
        · subst hu
          have h1 : List.countP (fun d => d.user_id == ev.uid)
              [freshDoc (evictIfFull db ev.uid) ev.uid (effectiveFilename ev.filename)] = 1 := by
            simp [freshDoc, List.countP_cons]
          rw [h1]
          by_cases hq : countDocs db ev.uid ≥ 10
          · have h9 := countP_evictIfFull_full hGood hq
            have h10 : db.docs.countP (fun d => d.user_id == ev.uid) ≤ 10 := by
              rw [← countDocs_eq_countP]
              exact hAll ev.uid
            omega
          · have hlt : countDocs db ev.uid < 10 := lt_of_not_ge hq
            have heq : (evictIfFull db ev.uid).docs = db.docs := by
              rw [evictIfFull_eq_of_not_full hq]
            rw [heq, ← countDocs_eq_countP]
            omega
        · have h0 : List.countP (fun d => d.user_id == u)
              [freshDoc (evictIfFull db ev.uid) ev.uid (effectiveFilename ev.filename)] = 0 := by
            simp only [freshDoc, List.countP_cons, List.countP_nil]
            have : (ev.uid == u) = false := beq_eq_false_iff_ne.mpr hu
            simp [this]
          rw [h0]
          have hle : (evictIfFull db ev.uid).docs.countP (fun d => d.user_id == u) ≤
              db.docs.countP (fun d => d.user_id == u) :=
            (evictIfFull_docs_sublist db ev.uid).countP_le _
          have h10 : db.docs.countP (fun d => d.user_id == u) ≤ 10 := by
            rw [← countDocs_eq_countP]
            exact hAll u
          omega

/-- Every upload sequence preserves the invariant. -/
theorem applyUploads_inv (ops : RAGOps) :
    ∀ (evs : List UploadEv) (db : DB) (vs : VSMap),
      GoodDB db → (∀ u, countDocs db u ≤ 10) →
      GoodDB (applyUploads ops (db, vs) evs).1 ∧
        ∀ u, countDocs (applyUploads ops (db, vs) evs).1 u ≤ 10
  | [], db, vs, hG, hA => by
    rw [applyUploads_nil]
    exact ⟨hG, hA⟩
  | ev :: evs, db, vs, hG, hA => by
    rw [applyUploads_cons]
    have step := handleDocument_inv ops db vs ev hG hA
    exact applyUploads_inv ops evs _ _ step.1 step.2

theorem freshDoc_id (db : DB) (uid fname : String) : (freshDoc db uid fname).id = db.nextId := rfl

/-- When an upload from a user at (or above) the quota passes both gates,
the evicted row is exactly the oldest one: it is minimal by
`upload_date` among the user's rows, it is gone from the resulting store,
every other row survives, and the fresh row (keyed `db.nextId`) exists. -/
theorem handleDocument_evicts {ops : RAGOps} {db : DB} {vs : VSMap} {ev : UploadEv}
    (hGood : GoodDB db) (hm : (ev.mime == "application/pdf") = true)
    (hs : ¬ ev.size > maxFileSize) (hq : 10 ≤ countDocs db ev.uid) :
    ∃ o, oldestDoc (userDocs db ev.uid) = some o ∧
      o ∈ userDocs db ev.uid ∧
      (∀ d ∈ userDocs db ev.uid, o.upload_date ≤ d.upload_date) ∧
      (∀ d ∈ userDocs db ev.uid, d.id ≠ o.id → o.upload_date < d.upload_date) ∧
      o ∉ (handleDocument ops db vs ev).1.docs ∧
      (∀ d ∈ db.docs, d.id ≠ o.id → d ∈ (handleDocument ops db vs ev).1.docs) ∧
      (∃ n ∈ (handleDocument ops db vs ev).1.docs, n.id = db.nextId ∧ n.user_id = ev.uid) := by
  have hne : userDocs db ev.uid ≠ [] := by
    intro h
    rw [countDocs, h] at hq
    simp at hq
  obtain ⟨o, ho⟩ := Option.isSome_iff_exists.mp (oldestDoc_isSome hne)
  have hoMem : o ∈ userDocs db ev.uid := oldestDoc_mem ho
  have hoDoc : o ∈ db.docs := (List.mem_filter.mp hoMem).1
  have hoLt : o.id < db.nextId := hGood.2.1 o hoDoc
  refine ⟨o, ho, hoMem, oldestDoc_le ho, ?_, ?_, ?_, ?_⟩
  · -- strict minimality from the distinct upload dates
    intro d hd hdo
    have hdDoc : d ∈ db.docs := (List.mem_filter.mp hd).1
    have hle := oldestDoc_le ho d hd
    rcases lt_or_eq_of_le hle with h | h
    · exact h
    · exfalso
      exact hdo (congrArg (fun x => x.id)
        (List.inj_on_of_nodup_map hGood.2.2.1 hdDoc hoDoc h.symm))
  all_goals
    rw [handleDocument_gated hm hs]
    dsimp only
  all_goals
    rw [evictIfFull_eq_of_full hq ho]
  -- erased list facts
  all_goals
    have hcnt1 : db.docs.countP (fun d => d.id == o.id) = 1 := countP_id_unique hGood.1 hoDoc
    have hcnt0 : (eraseFirst (fun d => d.id == o.id) db.docs).countP
        (fun d => d.id == o.id) = 0 := by
      have := countP_eraseFirst (p := fun (d : PDFDoc) => d.id == o.id)
        (q := fun (d : PDFDoc) => d.id == o.id) (l := db.docs)
        (fun x _ hx => hx) ⟨o, hoDoc, by simp⟩
      omega
    have hNotInErased : ∀ x ∈ eraseFirst (fun d => d.id == o.id) db.docs,
        ¬(x.id == o.id) = true := List.countP_eq_zero.mp hcnt0
  · -- the oldest row is gone
    intro hmem
    obtain ⟨hdocs, hni, hnd⟩ :=
      retryExtract_shape ops vs ev.uid (effectiveFilename ev.filename)
        (freshDoc { db with docs := eraseFirst (fun d => d.id == o.id) db.docs } ev.uid
          (effectiveFilename ev.filename)).id ev.ex [0, 1, 2]
        (addDoc { db with docs := eraseFirst (fun d => d.id == o.id) db.docs }
          (freshDoc { db with docs := eraseFirst (fun d => d.id == o.id) db.docs } ev.uid
            (effectiveFilename ev.filename)))
    have hndid : (freshDoc { db with docs := eraseFirst (fun d => d.id == o.id) db.docs } ev.uid
        (effectiveFilename ev.filename)).id = db.nextId := rfl
    have hoNe : o.id ≠ db.nextId := Nat.ne_of_lt hoLt
    have hoNotIn2 : o ∉ (addDoc { db with docs := eraseFirst (fun d => d.id == o.id) db.docs }
        (freshDoc { db with docs := eraseFirst (fun d => d.id == o.id) db.docs } ev.uid
          (effectiveFilename ev.filename))).docs := by
      intro hmem2
      simp only [addDoc, List.mem_append, List.mem_singleton] at hmem2
      rcases hmem2 with hmem2 | hmem2
      · exact hNotInErased o hmem2 (by simp)
      · exact hoNe (congrArg (fun x => x.id) hmem2)
    rcases hdocs with h | ⟨t, h⟩
    · rw [h] at hmem
      exact hoNotIn2 hmem
    · rw [h] at hmem
      rcases mem_mapFirst hmem with hmem2 | ⟨y, hy, hoy⟩
      · exact hoNotIn2 hmem2
      · have hyid : o.id = y.id := congrArg (fun x => x.id) hoy
        simp only [addDoc, List.mem_append, List.mem_singleton] at hy
        rcases hy with hy | hy
        · exact hNotInErased y hy (by simp [← hyid])
        · exact hoNe (hyid.trans (congrArg (fun x => x.id) hy))
  · -- every other row survives
    intro d hd hdo
    obtain ⟨hdocs, hni, hnd⟩ :=
      retryExtract_shape ops vs ev.uid (effectiveFilename ev.filename)
        (freshDoc { db with docs := eraseFirst (fun d => d.id == o.id) db.docs } ev.uid
          (effectiveFilename ev.filename)).id ev.ex [0, 1, 2]
        (addDoc { db with docs := eraseFirst (fun d => d.id == o.id) db.docs }
          (freshDoc { db with docs := eraseFirst (fun d => d.id == o.id) db.docs } ev.uid
            (effectiveFilename ev.filename)))
    have hdErased : d ∈ eraseFirst (fun x => x.id == o.id) db.docs :=
      mem_eraseFirst_of_not hd (by simp [hdo])
    have hdIn2 : d ∈ (addDoc { db with docs := eraseFirst (fun x => x.id == o.id) db.docs }
        (freshDoc { db with docs := eraseFirst (fun x => x.id == o.id) db.docs } ev.uid
          (effectiveFilename ev.filename))).docs := by
      simp only [addDoc, List.mem_append]
      exact Or.inl hdErased
    rcases hdocs with h | ⟨t, h⟩
    · rw [h]
      exact hdIn2
    · rw [h]
      have hdLt : d.id < db.nextId := hGood.2.1 d hd
      exact mem_mapFirst_of_not hdIn2 (by simp [freshDoc_id, Nat.ne_of_lt hdLt])
  · -- the fresh row exists
    obtain ⟨hdocs, hni, hnd⟩ :=
      retryExtract_shape ops vs ev.uid (effectiveFilename ev.filename)
        (freshDoc { db with docs := eraseFirst (fun d => d.id == o.id) db.docs } ev.uid
          (effectiveFilename ev.filename)).id ev.ex [0, 1, 2]
        (addDoc { db with docs := eraseFirst (fun d => d.id == o.id) db.docs }
          (freshDoc { db with docs := eraseFirst (fun d => d.id == o.id) db.docs } ev.uid
            (effectiveFilename ev.filename)))
    rcases hdocs with h | ⟨t, h⟩
    · refine ⟨freshDoc { db with docs := eraseFirst (fun d => d.id == o.id) db.docs } ev.uid
        (effectiveFilename ev.filename), ?_, rfl, rfl⟩
      rw [h]
      simp [addDoc]
    · rw [h]
      simp only [freshDoc_id]
      have hallf : ∀ y ∈ eraseFirst (fun d => d.id == o.id) db.docs,
          (y.id == db.nextId) = false := by
        intro y hy
        have hyLt : y.id < db.nextId :=
          hGood.2.1 y ((eraseFirst_sublist (fun d => d.id == o.id) db.docs).subset hy)
        simp [Nat.ne_of_lt hyLt]
      have happ := mapFirst_append_of_all_false
        (p := fun (d : PDFDoc) => d.id == db.nextId)
        (f := fun (d : PDFDoc) => { d with content := t }) hallf
        [freshDoc { db with docs := eraseFirst (fun d => d.id == o.id) db.docs } ev.uid
          (effectiveFilename ev.filename)]
      refine ⟨{ freshDoc { db with docs := eraseFirst (fun d => d.id == o.id) db.docs } ev.uid
        (effectiveFilename ev.filename) with content := t }, ?_, rfl, rfl⟩
      have : (addDoc { db with docs := eraseFirst (fun d => d.id == o.id) db.docs }
          (freshDoc { db with docs := eraseFirst (fun d => d.id == o.id) db.docs } ev.uid
            (effectiveFilename ev.filename))).docs
          = eraseFirst (fun d => d.id == o.id) db.docs ++
            [freshDoc { db with docs := eraseFirst (fun d => d.id == o.id) db.docs } ev.uid
              (effectiveFilename ev.filename)] := rfl
      rw [this, happ]
      simp [mapFirst, freshDoc]

/-! ## Concrete instances used by the closed witness and counterexample
theorems below -/

/-- A concrete external-call bundle: the embedding is the text length, the
similarity score is the sum of the two vectors, the generator echoes its
context and question. -/
def ops0 : RAGOps :=
  ⟨fun s => [(s.length : Int)],
   fun a b => a.foldl (· + ·) 0 + b.foldl (· + ·) 0,
   fun c q => "ANSWER(" ++ c ++ " | " ++ q ++ ")"⟩

/-- Extraction that succeeds on every attempt. -/
def exOk : Nat → Option String := fun _ => some "extracted text"

/-- Extraction that fails on every attempt. -/
def exFail : Nat → Option String := fun _ => none

/-- A stub QA collaborator. -/
def qa0 : String → Nat → String := fun _ _ => "qa-answer"

/-- A document row with the given key and timestamp, owned by `uid`. -/
def mkDoc (i date : Nat) (uid : String) : PDFDoc :=
  ⟨i, "f.pdf", "", date, uid, none, false⟩

/-- A user `"u"` already holding 10 documents (keys and dates 0..9). -/
def dbTen : DB :=
  ⟨(List.range 10).map (fun i => mkDoc i i "u"), [], [], [], 10, 10⟩

/-- A well-formed upload event from `"u"`. -/
def evU : UploadEv := ⟨"u", "application/pdf", some "new.pdf", 1, exOk⟩

/-! ## Claim C1 -/

/-- C1: starting from the empty store, no sequence of uploads ever takes a
user above 10 stored documents; and whenever an upload from a user at or
above the quota passes the gates, the row deleted is exactly the one with
the (unique) oldest `upload_date` among that user's rows — it is minimal,
it is absent afterwards, every other row survives, and the fresh row is
created. -/
theorem spec_c1_quota_and_eviction :
    (∀ (ops : RAGOps) (evs : List UploadEv) (uid : String),
      countDocs (applyUploads ops (DB.empty, []) evs).1 uid ≤ 10) ∧
    (∀ (ops : RAGOps) (db : DB) (vs : VSMap) (ev : UploadEv),
      GoodDB db → passesGates ev → 10 ≤ countDocs db ev.uid →
      ∃ o, oldestDoc (userDocs db ev.uid) = some o ∧
        o ∈ userDocs db ev.uid ∧
        (∀ d ∈ userDocs db ev.uid, o.upload_date ≤ d.upload_date) ∧
        (∀ d ∈ userDocs db ev.uid, d.id ≠ o.id → o.upload_date < d.upload_date) ∧
        o ∉ (handleDocument ops db vs ev).1.docs ∧
        (∀ d ∈ db.docs, d.id ≠ o.id → d ∈ (handleDocument ops db vs ev).1.docs) ∧
        (∃ n ∈ (handleDocument ops db vs ev).1.docs,
          n.id = db.nextId ∧ n.user_id = ev.uid)) := by
  constructor
  · intro ops evs uid
    have hG : GoodDB DB.empty := by
      refine ⟨?_, ?_, ?_, ?_⟩ <;> simp [DB.empty]
    have hA : ∀ u, countDocs DB.empty u ≤ 10 := by
      intro u
      simp [countDocs, userDocs, DB.empty]
    exact (applyUploads_inv ops evs DB.empty [] hG hA).2 uid
  · intro ops db vs ev hGood hGates hq
    exact handleDocument_evicts hGood (beq_iff_eq.mpr hGates.1) (not_lt.mpr hGates.2) hq

/-- Closed witness for C1 at concrete inputs: two uploads into the empty
store stay below quota, and an upload into a store already holding 10
documents evicts exactly the oldest one. -/
theorem spec_c1_quota_and_eviction_witness :
    countDocs (applyUploads ops0 (DB.empty, []) [evU, evU]).1 "u" ≤ 10 ∧
    ∃ o, oldestDoc (userDocs dbTen "u") = some o ∧
      o ∈ userDocs dbTen "u" ∧
      (∀ d ∈ userDocs dbTen "u", o.upload_date ≤ d.upload_date) ∧
      (∀ d ∈ userDocs dbTen "u", d.id ≠ o.id → o.upload_date < d.upload_date) ∧
      o ∉ (handleDocument ops0 dbTen [] evU).1.docs ∧
      (∀ d ∈ dbTen.docs, d.id ≠ o.id → d ∈ (handleDocument ops0 dbTen [] evU).1.docs) ∧
      (∃ n ∈ (handleDocument ops0 dbTen [] evU).1.docs,
        n.id = dbTen.nextId ∧ n.user_id = evU.uid) :=
  ⟨spec_c1_quota_and_eviction.1 ops0 [evU, evU] "u",
   spec_c1_quota_and_eviction.2 ops0 dbTen [] evU (by decide) (by decide) (by decide)⟩

/-! ## Claim C8 -/

theorem retryExtract_congr (ops : RAGOps) (db : DB) (vs : VSMap) (uid f : String)
    (docId : Nat) {ex1 ex2 : Nat → Option String} :
    ∀ l : List Nat, (∀ a ∈ l, ex1 a = ex2 a) →
      retryExtract ops db vs uid f docId ex1 l = retryExtract ops db vs uid f docId ex2 l
  | [], _ => by rw [retryExtract_nil, retryExtract_nil]
  | a :: rest, h => by
    rw [retryExtract_cons, retryExtract_cons, h a (List.mem_cons_self a rest)]
    cases ex2 a with
    | some t => rfl
    | none =>
      cases rest with
      | nil => rfl
      | cons b bs =>
        exact retryExtract_congr ops db vs uid f docId (b :: bs)
          (fun x hx => h x (List.mem_cons_of_mem a hx))

theorem retryExtract_all_fail (ops : RAGOps) (db : DB) (vs : VSMap) (uid f : String)
    (docId : Nat) (ex : Nat → Option String) (h : ∀ i, i < 3 → ex i = none) :
    retryExtract ops db vs uid f docId ex [0, 1, 2] =
      (db, vs, [(uid, msgTriedTimes), (uid, msgDocError)], .procError docId) := by
  simp only [retryExtract_cons, h 0 (by omega), h 1 (by omega), h 2 (by omega)]

/-- C8: the extraction oracle is consulted for at most the first three
attempts (the pipeline's outcome is identical for any two oracles agreeing
on attempts 0, 1, 2), and when all three attempts fail the handler reports
the processing error while the document row created before extraction is
kept, with empty `content`. -/
theorem spec_c8_extraction_retry :
    (∀ (ops : RAGOps) (db : DB) (vs : VSMap) (uid mime : String) (fn : Option String)
      (size : Nat) (ex1 ex2 : Nat → Option String), (∀ i, i < 3 → ex1 i = ex2 i) →
        handleDocument ops db vs ⟨uid, mime, fn, size, ex1⟩ =
          handleDocument ops db vs ⟨uid, mime, fn, size, ex2⟩) ∧
    (∀ (ops : RAGOps) (db : DB) (vs : VSMap) (ev : UploadEv),
      passesGates ev → (∀ i, i < 3 → ev.ex i = none) →
      (handleDocument ops db vs ev).2.2.2 = .procError db.nextId ∧
      ∃ d ∈ (handleDocument ops db vs ev).1.docs, d.id = db.nextId ∧ d.content = "") := by
  constructor
  · intro ops db vs uid mime fn size ex1 ex2 h
    cases hm : (mime == "application/pdf") with
    | false =>
      rw [handleDocument_bad_mime hm, handleDocument_bad_mime hm]
    | true =>
      by_cases hs : size > maxFileSize
      · rw [handleDocument_too_large hm hs, handleDocument_too_large hm hs]
      · rw [handleDocument_gated hm hs, handleDocument_gated hm hs]
        dsimp only
        rw [retryExtract_congr ops _ vs uid _ _ [0, 1, 2]
          (by intro x hx; fin_cases hx <;> exact h _ (by omega))]
  · intro ops db vs ev hGates h
    have hm : (ev.mime == "application/pdf") = true := beq_iff_eq.mpr hGates.1
    have hs : ¬ ev.size > maxFileSize := not_lt.mpr hGates.2
    rw [handleDocument_gated hm hs]
    dsimp only
    rw [retryExtract_all_fail _ _ _ _ _ _ ev.ex h, freshDoc_id, evictIfFull_nextId]
    refine ⟨rfl, ?_⟩
    refine ⟨freshDoc (evictIfFull db ev.uid) ev.uid (effectiveFilename ev.filename), ?_, ?_, rfl⟩
    · simp [addDoc]
    · rw [freshDoc_id, evictIfFull_nextId]

/-- Extraction failing on the first three attempts and succeeding later —
indistinguishable from always failing. -/
def exAlt : Nat → Option String := fun i => if i < 3 then none else some "late"

/-- A gate-passing upload whose extraction always fails. -/
def evFailU : UploadEv := ⟨"u", "application/pdf", some "a.pdf", 1, exFail⟩

/-- Closed witness for C8 at concrete inputs. -/
theorem spec_c8_extraction_retry_witness :
    (handleDocument ops0 DB.empty [] ⟨"u", "application/pdf", some "a.pdf", 1, exFail⟩ =
      handleDocument ops0 DB.empty [] ⟨"u", "application/pdf", some "a.pdf", 1, exAlt⟩) ∧
    ((handleDocument ops0 dbTen [] evFailU).2.2.2 = .procError dbTen.nextId ∧
      ∃ d ∈ (handleDocument ops0 dbTen [] evFailU).1.docs,
        d.id = dbTen.nextId ∧ d.content = "") :=
  ⟨spec_c8_extraction_retry.1 ops0 DB.empty [] "u" "application/pdf" (some "a.pdf") 1
      exFail exAlt (by decide),
   spec_c8_extraction_retry.2 ops0 dbTen [] evFailU (by decide) (by decide)⟩

/-! ## Claim C6 -/

/-- Model of Python `str.endswith`. -/
def pyEnds (s p : String) : Bool :=
  p.toList.isSuffixOf s.toList

/-- A non-PDF mime type carrying a `.pdf` filename. -/
def evC6 : UploadEv := ⟨"u", "text/plain", some "doc.pdf", 1, exOk⟩

/-- Counterexample to C6 as stated: the claim allows an upload whenever the
filename ends in `.pdf`, but the handler only consults the mime type — an
upload with mime `text/plain` and filename `doc.pdf` is rejected as
unsupported (and no row is created). -/
theorem spec_c6_gate_cex :
    pyEnds "doc.pdf" ".pdf" = true ∧
    evC6.mime ≠ "application/pdf" ∧ evC6.filename = some "doc.pdf" ∧
    (handleDocument ops0 DB.empty [] evC6).2.2.2 = .unsupported ∧
    (handleDocument ops0 DB.empty [] evC6).1 = DB.empty := by
  refine ⟨by decide, by decide, by decide, by decide, by decide⟩

/-- The outcome of the retry loop is success or a processing error, never a
gate rejection. -/
theorem retryExtract_result (ops : RAGOps) (vs : VSMap) (uid f : String) (docId : Nat)
    (ex : Nat → Option String) :
    ∀ (l : List Nat) (db : DB),
      (retryExtract ops db vs uid f docId ex l).2.2.2 = .procError docId ∨
      (retryExtract ops db vs uid f docId ex l).2.2.2 = .success docId
  | [], db => Or.inl rfl
  | a :: rest, db => by
    rw [retryExtract_cons]
    cases ex a with
    | some t => exact Or.inr rfl
    | none =>
      cases rest with
      | nil => exact Or.inl rfl
      | cons b bs => exact retryExtract_result ops vs uid f docId ex (b :: bs) db

/-- C6 amended: `handle_document` rejects with the unsupported-type error
iff the mime type differs from `application/pdf` — the filename plays no
role; with the mime accepted it rejects as too large iff the download
exceeds 5 MiB; in both rejection cases the store and the retrieval index
are unchanged (no row is created). -/
theorem spec_c6_gates_amended :
    ∀ (ops : RAGOps) (db : DB) (vs : VSMap) (ev : UploadEv),
      ((handleDocument ops db vs ev).2.2.2 = .unsupported ↔ ev.mime ≠ "application/pdf") ∧
      ((handleDocument ops db vs ev).2.2.2 = .tooLarge ↔
        ev.mime = "application/pdf" ∧ ev.size > maxFileSize) ∧
      ((ev.mime ≠ "application/pdf" ∨ ev.size > maxFileSize) →
        (handleDocument ops db vs ev).1 = db ∧ (handleDocument ops db vs ev).2.1 = vs) := by
  intro ops db vs ev
  cases hm : (ev.mime == "application/pdf") with
  | false =>
    have hne : ev.mime ≠ "application/pdf" := by
      intro h
      rw [h] at hm
      simp at hm
    rw [handleDocument_bad_mime hm]
    refine ⟨by simp [hne], by simp [hne], fun _ => ⟨rfl, rfl⟩⟩
  | true =>
    have heq : ev.mime = "application/pdf" := beq_iff_eq.mp hm
    by_cases hs : ev.size > maxFileSize
    · rw [handleDocument_too_large hm hs]
      refine ⟨by simp [heq], by simp [heq, hs], fun _ => ⟨rfl, rfl⟩⟩
    · rw [handleDocument_gated hm hs]
      dsimp only
      rcases retryExtract_result ops vs ev.uid (effectiveFilename ev.filename)
        (freshDoc (evictIfFull db ev.uid) ev.uid (effectiveFilename ev.filename)).id ev.ex
        [0, 1, 2]
        (addDoc (evictIfFull db ev.uid)
          (freshDoc (evictIfFull db ev.uid) ev.uid (effectiveFilename ev.filename)))
        with hr | hr
      · rw [hr]
        refine ⟨by simp [heq], by simp [hs], ?_⟩
        intro h
        rcases h with h | h
        · exact absurd heq h
        · exact absurd h hs
      · rw [hr]
        refine ⟨by simp [heq], by simp [hs], ?_⟩
        intro h
        rcases h with h | h
        · exact absurd heq h
        · exact absurd h hs

/-- Closed witness for the amended C6 at a concrete rejected input. -/
theorem spec_c6_gates_amended_witness :
    ((handleDocument ops0 DB.empty [] evC6).2.2.2 = .unsupported ↔
      evC6.mime ≠ "application/pdf") ∧
    (handleDocument ops0 DB.empty [] evC6).1 = DB.empty :=
  ⟨(spec_c6_gates_amended ops0 DB.empty [] evC6).1,
   ((spec_c6_gates_amended ops0 DB.empty [] evC6).2.2 (Or.inl (by decide))).1⟩

/-! ## Claim C2 -/

/-- User `"u"` with one stored document (key 1) which is also the active
one. -/
def dbC2 : DB :=
  ⟨[⟨1, "a.pdf", "text", 0, "u", none, false⟩], [⟨"u", "active", some 1⟩], [], [], 2, 1⟩

/-- Counterexample to C2 as stated: `/delete 1` deletes the active
document, yet the session row still carries `active_pdf_id = 1` — the
reference dangles (the `_set_user_state(..., None)` call keeps the existing
value instead of clearing it). -/
theorem spec_c2_dangling_cex :
    (handleCommand dbC2 "u" "/delete 1").2.2 = .deleted 1 ∧
    (handleCommand dbC2 "u" "/delete 1").1.docs = [] ∧
    stateRowOf (handleCommand dbC2 "u" "/delete 1").1 "u" = some ⟨"u", "active", some 1⟩ ∧
    docById (handleCommand dbC2 "u" "/delete 1").1 1 = none := by
  refine ⟨by decide, by decide, by decide, by decide⟩

theorem find?_mapFirst_self {p : α → Bool} {f : α → α} {x : α}
    (hp : ∀ y, p y = true → p (f y) = true) :
    ∀ {l : List α}, l.find? p = some x → (mapFirst p f l).find? p = some (f x)
  | [], h => by simp at h
  | a :: as, h => by
    cases ha : p a
    · rw [List.find?_cons_of_neg _ (by simp [ha])] at h
      simp only [mapFirst, ha, Bool.false_eq_true, if_false]
      rw [List.find?_cons_of_neg _ (by simp [ha])]
      exact find?_mapFirst_self hp h
    · rw [List.find?_cons_of_pos _ ha] at h
      simp only [Option.some.injEq] at h
      simp only [mapFirst, ha, if_true]
      rw [List.find?_cons_of_pos _ (hp a ha), h]

/-- The session row after `_set_user_state` when a row already exists: the
mode is overwritten, the document reference only when a non-`None` value is
passed. -/
theorem stateRowOf_setUserState {db : DB} {uid : String} {us : UserStateRow} (st : String)
    (a : Option Nat) (h : stateRowOf db uid = some us) :
    stateRowOf (setUserState db uid st a) uid =
      some { us with
        state := st
        active_pdf_id := (match a with | some i => some i | none => us.active_pdf_id) } := by
  unfold setUserState
  rw [h]
  dsimp only
  unfold stateRowOf at h ⊢
  exact find?_mapFirst_self
    (p := fun (u : UserStateRow) => u.user_id == uid)
    (f := fun (u : UserStateRow) =>
      { u with
        state := st
        active_pdf_id := (match a with | some i => some i | none => u.active_pdf_id) })
    (fun y hy => hy) h

/-- When `handle_command` reports a `/delete N` deletion, the resulting
store is: erase that row, then `_set_user_state(uid, "active", None)`. -/
theorem handleCommand_deleted_shape (db : DB) (uid cmd : String) (docId : Nat)
    (hres : (handleCommand db uid cmd).2.2 = .deleted docId) :
    (handleCommand db uid cmd).1 =
      setUserState { db with docs := eraseFirst (fun d => d.id == docId) db.docs }
        uid "active" none := by
  revert hres
  unfold handleCommand
  dsimp only
  repeat' split
  all_goals intro hres
  all_goals cases hres <;> rfl

/-- When `handle_command` reports `/delete_all`, the resulting store is:
drop all of the user's rows, then `_set_user_state(uid, "active", None)`. -/
theorem handleCommand_deleteAll_shape (db : DB) (uid cmd : String) (n : Nat)
    (hres : (handleCommand db uid cmd).2.2 = .deletedAll n) :
    (handleCommand db uid cmd).1 =
      setUserState { db with docs := db.docs.filter (fun d => !(d.user_id == uid)) }
        uid "active" none := by
  revert hres
  unfold handleCommand
  dsimp only
  repeat' split
  all_goals intro hres
  all_goals cases hres <;> rfl

/-- C2 amended: deleting documents never clears an existing session's
document reference.  After a `/delete N` deletion or a `/delete_all`, a
pre-existing session row keeps its old `active_pdf_id` (only the mode is
set to `"active"`), and quota eviction during an upload leaves the session
rows entirely untouched (shown here on the failed-extraction path, where no
later step rewrites the session) — so a session whose reference points to
the deleted document dangles. -/
theorem spec_c2_no_clear_amended :
    (∀ (db : DB) (uid cmd : String) (us : UserStateRow) (docId : Nat),
      stateRowOf db uid = some us →
      (handleCommand db uid cmd).2.2 = .deleted docId →
      stateRowOf (handleCommand db uid cmd).1 uid = some { us with state := "active" }) ∧
    (∀ (db : DB) (uid cmd : String) (us : UserStateRow) (n : Nat),
      stateRowOf db uid = some us →
      (handleCommand db uid cmd).2.2 = .deletedAll n →
      stateRowOf (handleCommand db uid cmd).1 uid = some { us with state := "active" }) ∧
    (∀ (ops : RAGOps) (db : DB) (vs : VSMap) (ev : UploadEv),
      (∀ i, i < 3 → ev.ex i = none) →
      (handleDocument ops db vs ev).1.states = db.states) := by
  refine ⟨?_, ?_, ?_⟩
  · intro db uid cmd us docId h hres
    rw [handleCommand_deleted_shape db uid cmd docId hres]
    have h' : stateRowOf { db with docs := eraseFirst (fun d => d.id == docId) db.docs } uid
        = some us := h
    exact stateRowOf_setUserState "active" none h'
  · intro db uid cmd us n h hres
    rw [handleCommand_deleteAll_shape db uid cmd n hres]
    have h' : stateRowOf { db with docs := db.docs.filter (fun d => !(d.user_id == uid)) } uid
        = some us := h
    exact stateRowOf_setUserState "active" none h'
  · intro ops db vs ev hfail
    cases hm : (ev.mime == "application/pdf") with
    | false => rw [handleDocument_bad_mime hm]
    | true =>
      by_cases hs : ev.size > maxFileSize
      · rw [handleDocument_too_large hm hs]
      · rw [handleDocument_gated hm hs]
        dsimp only
        rw [retryExtract_all_fail _ _ _ _ _ _ ev.ex hfail]
        exact evictIfFull_states db ev.uid

/-- Closed witness for the amended C2: deleting the active document of
`dbC2` keeps the (now dangling) reference, and an upload evicting from a
full store leaves the session rows unchanged. -/
theorem spec_c2_no_clear_amended_witness :
    stateRowOf (handleCommand dbC2 "u" "/delete 1").1 "u" =
      some { (⟨"u", "active", some 1⟩ : UserStateRow) with state := "active" } ∧
    (handleDocument ops0 dbC2 [] evFailU).1.states = dbC2.states :=
  ⟨spec_c2_no_clear_amended.1 dbC2 "u" "/delete 1" ⟨"u", "active", some 1⟩ 1
      (by decide) (by decide),
   spec_c2_no_clear_amended.2.2 ops0 dbC2 [] evFailU (by decide)⟩

/-! ## Claim C3 -/

/-- User `"u"` waiting to file a bug report, no documents. -/
def dbC3 : DB := ⟨[], [⟨"u", "awaiting_report", none⟩], [], [], 0, 0⟩

/-- Counterexample to C3 as stated: with the session in `awaiting_report`,
a message starting with `/` is dispatched to the command router and an
intent-matching message is answered as an intent — in neither case is a
bug report stored, and the slash-command leaves the session still in
`awaiting_report`. -/
theorem spec_c3_report_cex :
    stateRowOf dbC3 "u" = some ⟨"u", "awaiting_report", none⟩ ∧
    (handleText dbC3 "u" "n" "/help" qa0).2.2 = .command .help ∧
    (handleText dbC3 "u" "n" "/help" qa0).1.reports = [] ∧
    stateRowOf (handleText dbC3 "u" "n" "/help" qa0).1 "u" =
      some ⟨"u", "awaiting_report", none⟩ ∧
    (handleText dbC3 "u" "n" "thanks" qa0).2.2 = .intentHandled ∧
    (handleText dbC3 "u" "n" "thanks" qa0).1.reports = [] := by
  refine ⟨by decide, by decide, by decide, by decide, by decide, by decide⟩

theorem setStateFieldOnly_reports (db : DB) (uid st : String) :
    (setStateFieldOnly db uid st).reports = db.reports := rfl

theorem stateRowOf_setStateFieldOnly {db : DB} {uid : String} {us : UserStateRow} (st : String)
    (h : stateRowOf db uid = some us) :
    stateRowOf (setStateFieldOnly db uid st) uid = some { us with state := st } := by
  unfold setStateFieldOnly
  unfold stateRowOf at h ⊢
  exact find?_mapFirst_self
    (p := fun (u : UserStateRow) => u.user_id == uid)
    (f := fun (u : UserStateRow) => { u with state := st })
    (fun y hy => hy) h

/-- The report-capture path of `handle_text`: with an existing session in
`awaiting_report` and a non-command, non-intent body, the handler stores
the (lowercased) body as a bug report, resets the mode to `"active"` and
replies with the acknowledgement — the QA collaborator plays no part. -/
theorem handleText_report_eq (db : DB) (uid name body : String)
    (qa : String → Nat → String) (us : UserStateRow)
    (hrow : stateRowOf db uid = some us) (hst : us.state = "awaiting_report")
    (hcmd : pyStarts (pyLower body) "/" = false)
    (hint : specialIntent (pyLower body) = none) :
    handleText db uid name body qa =
      (let db2 := (match resolvePdf db uid us.active_pdf_id with
          | (some d, true) => setUserState db uid us.state (some d.id)
          | _ => db)
       (setStateFieldOnly
          { db2 with reports := db2.reports ++ [⟨uid, name, pyLower body⟩] } uid "active",
        [(uid, msgReportThanks)], .reportReceived (pyLower body))) := by
  have hbeq : (us.state == "awaiting_report") = true := by simp [hst]
  simp only [handleText, hcmd, Bool.false_eq_true, if_false, hint, hrow, hbeq, if_true]
  rcases hres : resolvePdf db uid us.active_pdf_id with ⟨pd, fb⟩
  cases pd with
  | none => cases fb <;> rfl
  | some d => cases fb <;> rfl

/-- C3 amended: while the session is in AWAITING_REPORT, only the next text
message that does not start with `/` and matches no special intent is
captured: it is stored (lowercased) as a bug report, the mode becomes
`"active"` unconditionally, and the QA collaborator is never consulted
(the outcome is identical for every `qa`).  Slash-commands and
intent-matching messages bypass the capture (see the counterexample). -/
theorem spec_c3_report_capture_amended :
    ∀ (db : DB) (uid name body : String) (qa : String → Nat → String) (us : UserStateRow),
      stateRowOf db uid = some us → us.state = "awaiting_report" →
      pyStarts (pyLower body) "/" = false → specialIntent (pyLower body) = none →
      (handleText db uid name body qa).2.2 = .reportReceived (pyLower body) ∧
      (⟨uid, name, pyLower body⟩ : BugReportRow) ∈ (handleText db uid name body qa).1.reports ∧
      (stateRowOf (handleText db uid name body qa).1 uid).map (fun u => u.state) =
        some "active" ∧
      (∀ qa', handleText db uid name body qa' = handleText db uid name body qa) := by
  intro db uid name body qa us hrow hst hcmd hint
  have heq := handleText_report_eq db uid name body qa us hrow hst hcmd hint
  have key : ∀ (dbx : DB) (r : UserStateRow), stateRowOf dbx uid = some r →
      (stateRowOf (setStateFieldOnly
        { dbx with reports := dbx.reports ++ [⟨uid, name, pyLower body⟩] } uid "active")
          uid).map (fun u => u.state) = some "active" := by
    intro dbx r hr
    have hr' : stateRowOf { dbx with reports := dbx.reports ++ [⟨uid, name, pyLower body⟩] } uid
        = some r := hr
    rw [stateRowOf_setStateFieldOnly "active" hr']
    rfl
  refine ⟨?_, ?_, ?_, ?_⟩
  · rw [heq]
  · rw [heq]
    dsimp only
    simp only [setStateFieldOnly]
    exact List.mem_append_right _ (List.mem_singleton_self _)
  · rw [heq]
    dsimp only
    rcases hres : resolvePdf db uid us.active_pdf_id with ⟨pd, fb⟩
    cases pd with
    | none => cases fb <;> exact key db us hrow
    | some d =>
      cases fb with
      | false => exact key db us hrow
      | true => exact key _ _ (stateRowOf_setUserState us.state (some d.id) hrow)
  · intro qa'
    rw [handleText_report_eq db uid name body qa' us hrow hst hcmd hint, heq]

/-- Closed witness for the amended C3: user in `awaiting_report` sends
`"The Summary FEATURE is broken"` — stored lowercased as a report, mode back
to active, identical outcome under a different QA collaborator. -/
theorem spec_c3_report_capture_amended_witness :
    (handleText dbC3 "u" "n" "The Summary FEATURE is broken" qa0).2.2 =
      .reportReceived (pyLower "The Summary FEATURE is broken") ∧
    (⟨"u", "n", pyLower "The Summary FEATURE is broken"⟩ : BugReportRow) ∈
      (handleText dbC3 "u" "n" "The Summary FEATURE is broken" qa0).1.reports ∧
    (stateRowOf (handleText dbC3 "u" "n" "The Summary FEATURE is broken" qa0).1 "u").map
      (fun u => u.state) = some "active" ∧
    (∀ qa', handleText dbC3 "u" "n" "The Summary FEATURE is broken" qa' =
      handleText dbC3 "u" "n" "The Summary FEATURE is broken" qa0) :=
  spec_c3_report_capture_amended dbC3 "u" "n" "The Summary FEATURE is broken" qa0
    ⟨"u", "awaiting_report", none⟩ (by decide) (by decide) (by decide) (by decide)

/-! ## Claim C7 -/

/-- User `"u"` with one stored document but no active selection. -/
def dbC7 : DB :=
  ⟨[⟨1, "a.pdf", "t", 0, "u", none, false⟩], [⟨"u", "welcomed", none⟩], [], [], 2, 1⟩

/-- Counterexample to C7 as stated: the user has no `active_document_id`
set, yet the free-text question is not met with an upload prompt — the
handler forwards it to the QA engine against the most recently uploaded
document and implicitly selects it (and the only outbound is the
generic apology, since the reply delivery then raises `TypeError`). -/
theorem spec_c7_fallback_cex :
    stateRowOf dbC7 "u" = some ⟨"u", "welcomed", none⟩ ∧
    (handleText dbC7 "u" "n" "what is x" qa0).2.2 = .qaTypeError "what is x" 1 ∧
    (handleText dbC7 "u" "n" "what is x" qa0).2.1 = [("u", msgTextError)] ∧
    (stateRowOf (handleText dbC7 "u" "n" "what is x" qa0).1 "u").map
      (fun u => u.active_pdf_id) = some (some 1) := by
  refine ⟨by decide, by decide, by decide, by decide⟩

theorem find?_append_none {p : α → Bool} :
    ∀ {l1 : List α}, l1.find? p = none → ∀ l2 : List α, (l1 ++ l2).find? p = l2.find? p
  | [], _, l2 => rfl
  | a :: as, h, l2 => by
    cases ha : p a
    · rw [List.find?_cons_of_neg _ (by simp [ha])] at h
      rw [List.cons_append, List.find?_cons_of_neg _ (by simp [ha])]
      exact find?_append_none h l2
    · rw [List.find?_cons_of_pos _ ha] at h
      simp at h

theorem stateRowOf_created {db : DB} {uid : String} (h : stateRowOf db uid = none)
    (r : UserStateRow) (hr : (r.user_id == uid) = true) :
    stateRowOf { db with states := db.states ++ [r] } uid = some r := by
  unfold stateRowOf at h ⊢
  rw [find?_append_none h]
  exact List.find?_cons_of_pos _ hr

theorem docById_id {db : DB} {i : Nat} {d : PDFDoc} (h : docById db i = some d) : d.id = i := by
  have := List.find?_some h
  simpa using this

/-- The document `handle_text` resolves a question against: the session's
`active_pdf_id` when it still points at a row, otherwise the most recent
upload. -/
def resolvedDoc (db : DB) (uid : String) : Option PDFDoc :=
  (resolvePdf db uid ((stateRowOf db uid).bind (fun u => u.active_pdf_id))).1

theorem resolvePdf_false_some {db : DB} {uid : String} {a : Option Nat} {d : PDFDoc}
    (h : resolvePdf db uid a = (some d, false)) :
    ∃ i, a = some i ∧ docById db i = some d := by
  unfold resolvePdf at h
  cases a with
  | none =>
    cases hl : latestDoc db uid <;> rw [hl] at h <;> simp_all
  | some i =>
    dsimp only at h
    cases hb : docById db i with
    | some x =>
      rw [hb] at h
      simp only [Prod.mk.injEq, Option.some.injEq] at h
      exact ⟨i, rfl, by rw [hb, h.1]⟩
    | none =>
      rw [hb] at h
      cases hl : latestDoc db uid <;> rw [hl] at h <;> simp_all

theorem resolvePdf_none_some {db : DB} {uid : String} {d : PDFDoc} {fb : Bool}
    (h : resolvePdf db uid none = (some d, fb)) : fb = true ∧ latestDoc db uid = some d := by
  unfold resolvePdf at h
  cases hl : latestDoc db uid <;> rw [hl] at h <;> simp_all

/-- C7 amended: a free-text message that is neither a command nor a
recognized intent is forwarded to the QA engine against the resolved
document — the active one when its row still exists, otherwise the most
recent upload, which is then implicitly selected (`active_pdf_id` points
at that document afterwards); the QA answer is never delivered, though:
subscripting `get_answer`'s string return with `["answer"]` raises
`TypeError`, so the only outbound is the generic apology and the request
fails with HTTP 500.  The user is prompted to upload only when they have
no resolvable document at all. -/
theorem spec_c7_qa_routing_amended :
    ∀ (db : DB) (uid name body : String) (qa : String → Nat → String),
      pyStarts (pyLower body) "/" = false → specialIntent (pyLower body) = none →
      (pyLower body == "") = false →
      (stateRowOf db uid).map (fun u => u.state) ≠ some "awaiting_report" →
      (resolvedDoc db uid = none →
        ((handleText db uid name body qa).2.2 = .welcomed ∨
         (handleText db uid name body qa).2.2 = .noPdfReminder)) ∧
      (∀ d, resolvedDoc db uid = some d →
        (handleText db uid name body qa).2.2 = .qaTypeError (pyLower body) d.id ∧
        (handleText db uid name body qa).2.1 = [(uid, msgTextError)] ∧
        (stateRowOf (handleText db uid name body qa).1 uid).map (fun u => u.active_pdf_id) =
          some (some d.id)) := by
  intro db uid name body qa hcmd hint hbody hnr
  cases hrow : stateRowOf db uid with
  | some us =>
    have hstate : (us.state == "awaiting_report") = false := by
      rw [hrow] at hnr
      simp only [Option.map] at hnr
      exact beq_eq_false_iff_ne.mpr (fun h => hnr (by rw [h]))
    have hrd0 : resolvedDoc db uid = (resolvePdf db uid us.active_pdf_id).1 := by
      simp [resolvedDoc, hrow]
    simp only [handleText, hcmd, Bool.false_eq_true, if_false, hint, hrow, hstate, hbody]
    rcases hres : resolvePdf db uid us.active_pdf_id with ⟨pd, fb⟩
    have hrd : resolvedDoc db uid = pd := by rw [hrd0, hres]
    constructor
    · intro hnone
      rw [hrd] at hnone
      subst hnone
      cases fb <;> dsimp only <;> cases hn : us.state == "new"
      all_goals
        solve
          | (right; simp)
          | (left; simp)
    · intro d hd
      rw [hrd] at hd
      subst hd
      cases fb with
      | true =>
        dsimp only
        refine ⟨by trivial, by trivial, ?_⟩
        have h2 := stateRowOf_setUserState us.state (some d.id) hrow
        cases hnw : us.state == "new" || us.state == "welcomed"
        · simp only [hnw, Bool.false_eq_true, if_false]
          rw [h2]
          rfl
        · simp only [hnw, if_true]
          rw [stateRowOf_setUserState "active" (some d.id) h2]
          rfl
      | false =>
        obtain ⟨i, hai, hdoc⟩ := resolvePdf_false_some hres
        have hid : d.id = i := docById_id hdoc
        dsimp only
        refine ⟨by trivial, by trivial, ?_⟩
        cases hnw : us.state == "new" || us.state == "welcomed"
        · simp only [hnw, Bool.false_eq_true, if_false]
          rw [hrow]
          simp [hai, hid]
        · simp only [hnw, if_true]
          rw [stateRowOf_setUserState "active" (some d.id) hrow]
          rfl
  | none =>
    have hrd0 : resolvedDoc db uid = (resolvePdf db uid none).1 := by
      simp [resolvedDoc, hrow]
    have hns : (("new" : String) == "awaiting_report") = false := by decide
    have hnn : (("new" : String) == "new" || ("new" : String) == "welcomed") = true := by decide
    have hn1 : (("new" : String) == "new") = true := by decide
    simp only [handleText, hcmd, Bool.false_eq_true, if_false, hint, hrow, hbody]
    have hsame : resolvePdf { db with states := db.states ++ [⟨uid, "new", none⟩] } uid none =
        resolvePdf db uid none := rfl
    rcases hres : resolvePdf { db with states := db.states ++ [⟨uid, "new", none⟩] } uid none
      with ⟨pd, fb⟩
    have hrd : resolvedDoc db uid = pd := by rw [hrd0, ← hsame, hres]
    have hcreated : stateRowOf { db with states := db.states ++ [⟨uid, "new", none⟩] } uid =
        some ⟨uid, "new", none⟩ := stateRowOf_created hrow _ (by simp)
    constructor
    · intro hnone
      rw [hrd] at hnone
      subst hnone
      cases fb <;> dsimp only <;> exact Or.inl (by simp [hns, hn1])
    · intro d hd
      rw [hrd] at hd
      subst hd
      have hfb := resolvePdf_none_some (hsame ▸ hres)
      rcases hfb with ⟨rfl, _⟩
      dsimp only
      simp only [hns, hnn, Bool.false_eq_true, if_false, if_true]
      refine ⟨by trivial, by trivial, ?_⟩
      have h2 := stateRowOf_setUserState "new" (some d.id) hcreated
      rw [stateRowOf_setUserState "active" (some d.id) h2]
      rfl

/-- Closed witness for the amended C7: a question from a user with a stored
but unselected document reaches the QA engine against it, selects it, and
the outbound is the apology. -/
theorem spec_c7_qa_routing_amended_witness :
    (handleText dbC7 "u" "n" "what is x" qa0).2.2 =
      .qaTypeError (pyLower "what is x") (⟨1, "a.pdf", "t", 0, "u", none, false⟩ : PDFDoc).id ∧
    (handleText dbC7 "u" "n" "what is x" qa0).2.1 = [("u", msgTextError)] ∧
    (stateRowOf (handleText dbC7 "u" "n" "what is x" qa0).1 "u").map
      (fun u => u.active_pdf_id) =
      some (some (⟨1, "a.pdf", "t", 0, "u", none, false⟩ : PDFDoc).id) :=
  (spec_c7_qa_routing_amended dbC7 "u" "n" "what is x" qa0
      (by decide) (by decide) (by decide) (by decide)).2
    ⟨1, "a.pdf", "t", 0, "u", none, false⟩ (by decide)

/-! ## Claim C10 -/

/-- `handle_command` never touches the stored bug reports. -/
theorem handleCommand_reports (db : DB) (uid cmd : String) :
    (handleCommand db uid cmd).1.reports = db.reports := by
  unfold handleCommand
  dsimp only
  repeat' split
  all_goals simp [setUserState_reports]

/-- The bug reports after `handle_text`: unchanged, or extended by exactly
the lowercased inbound body. -/
theorem handleText_reports (db : DB) (uid name body : String) (qa : String → Nat → String) :
    (handleText db uid name body qa).1.reports = db.reports ∨
    (handleText db uid name body qa).1.reports =
      db.reports ++ [⟨uid, name, pyLower body⟩] := by
  unfold handleText
  dsimp only
  repeat' split
  all_goals
    solve
      | (left; exact handleCommand_reports _ _ _)
      | (left; simp [setUserState_reports, setStateFieldOnly_reports])
      | (right; simp [setUserState_reports, setStateFieldOnly_reports])

/-- Every question `handle_text` forwards to the QA collaborator (before
the failed reply delivery) is the lowercased inbound body. -/
theorem handleText_qaQuestion (db : DB) (uid name body : String) (qa : String → Nat → String)
    (q : String) (d : Nat) :
    (handleText db uid name body qa).2.2 = .qaTypeError q d → q = pyLower body := by
  unfold handleText
  dsimp only
  repeat' split
  all_goals intro h
  all_goals cases h <;> rfl

/-- C10: the inbound body is lowercased before any handling — a bug report
stored by the call carries exactly the lowercased body, and any question
forwarded to the QA engine (before the reply delivery fails) equals the
lowercased body (original casing is never preserved). -/
theorem spec_c10_lowercase_normalization :
    ∀ (db : DB) (uid name body : String) (qa : String → Nat → String),
      (∀ rep ∈ (handleText db uid name body qa).1.reports,
        rep ∈ db.reports ∨ rep.content = pyLower body) ∧
      (∀ q d, (handleText db uid name body qa).2.2 = .qaTypeError q d → q = pyLower body) := by
  intro db uid name body qa
  constructor
  · intro rep hrep
    rcases handleText_reports db uid name body qa with h | h
    · rw [h] at hrep
      exact Or.inl hrep
    · rw [h] at hrep
      rcases List.mem_append.mp hrep with h1 | h1
      · exact Or.inl h1
      · right
        simp only [List.mem_singleton] at h1
        rw [h1]
  · exact fun q d => handleText_qaQuestion db uid name body qa q d

/-- Closed witness for C10: a mixed-case report body is stored lowercased,
and a mixed-case question reaches the QA engine lowercased. -/
theorem spec_c10_lowercase_normalization_witness :
    ((⟨"u", "n", "bug in the app"⟩ : BugReportRow) ∈ dbC3.reports ∨
      ("bug in the app" : String) = pyLower "BUG In THE App") ∧
    ("what is x" : String) = pyLower "What IS x" :=
  ⟨(spec_c10_lowercase_normalization dbC3 "u" "n" "BUG In THE App" qa0).1
      ⟨"u", "n", "bug in the app"⟩ (by decide),
   (spec_c10_lowercase_normalization dbC7 "u" "n" "What IS x" qa0).2
      "what is x" 1 (by decide)⟩

/-! ## Claim C5 -/

theorem setUserState_processedIds (db : DB) (uid st : String) (a : Option Nat) :
    (setUserState db uid st a).processedIds = db.processedIds := by
  unfold setUserState
  cases stateRowOf db uid <;> rfl

theorem setStateFieldOnly_processedIds (db : DB) (uid st : String) :
    (setStateFieldOnly db uid st).processedIds = db.processedIds := rfl

theorem evictIfFull_processedIds (db : DB) (uid : String) :
    (evictIfFull db uid).processedIds = db.processedIds := by
  unfold evictIfFull
  by_cases h : countDocs db uid ≥ 10
  · simp only [h, if_true]
    cases oldestDoc (userDocs db uid) <;> rfl
  · simp [h]

theorem retryExtract_processedIds (ops : RAGOps) (vs : VSMap) (uid f : String) (docId : Nat)
    (ex : Nat → Option String) :
    ∀ (l : List Nat) (db : DB),
      (retryExtract ops db vs uid f docId ex l).1.processedIds = db.processedIds
  | [], db => rfl
  | a :: rest, db => by
    rw [retryExtract_cons]
    cases ex a with
    | some t =>
      dsimp only
      rw [setUserState_processedIds]
    | none =>
      cases rest with
      | nil => rfl
      | cons b bs => exact retryExtract_processedIds ops vs uid f docId ex (b :: bs) db

theorem handleDocument_processedIds (ops : RAGOps) (db : DB) (vs : VSMap) (ev : UploadEv) :
    (handleDocument ops db vs ev).1.processedIds = db.processedIds := by
  cases hm : (ev.mime == "application/pdf") with
  | false => rw [handleDocument_bad_mime hm]
  | true =>
    by_cases hs : ev.size > maxFileSize
    · rw [handleDocument_too_large hm hs]
    · rw [handleDocument_gated hm hs]
      dsimp only
      rw [retryExtract_processedIds]
      show (evictIfFull db ev.uid).processedIds = db.processedIds
      exact evictIfFull_processedIds db ev.uid

theorem handleCommand_processedIds (db : DB) (uid cmd : String) :
    (handleCommand db uid cmd).1.processedIds = db.processedIds := by
  unfold handleCommand
  dsimp only
  repeat' split
  all_goals simp [setUserState_processedIds]

theorem handleText_processedIds (db : DB) (uid name body : String)
    (qa : String → Nat → String) :
    (handleText db uid name body qa).1.processedIds = db.processedIds := by
  unfold handleText
  dsimp only
  repeat' split
  all_goals
    solve
      | exact handleCommand_processedIds _ _ _
      | simp [setUserState_processedIds, setStateFieldOnly_processedIds]

/-- `mainHandle` (the body of the legacy handler after the idempotency
gate) never writes a Processed Message Record. -/
theorem mainHandle_processedIds (ops : RAGOps) (db : DB) (vs : VSMap) (ev : InboundEv) :
    (mainHandle ops db vs ev).1.processedIds = db.processedIds := by
  unfold mainHandle
  dsimp only
  repeat' split
  all_goals rfl

/-- C5 amended: only the legacy Meta-format handler in `app/main.py` is
idempotent — redelivering a recorded `message_id` short-circuits before
any side effect (store, index, outbound all untouched), and a first
delivery records the id; the Twilio route actually mounted by
`create_app` consults no Processed Message Record at all, so a redelivered
Twilio event re-executes handling (see the counterexample: a duplicate
document and duplicate outbound replies). -/
theorem spec_c5_idempotency_amended :
    (∀ (ops : RAGOps) (db : DB) (vs : VSMap) (ev : InboundEv) (mid : String),
      ev.message_id = some mid → mid ∈ db.processedIds →
      mainWebhook ops db vs ev = (db, vs, [], .alreadyProcessed)) ∧
    (∀ (ops : RAGOps) (db : DB) (vs : VSMap) (ev : InboundEv) (mid : String),
      ev.message_id = some mid → mid ∉ db.processedIds →
      mid ∈ (mainWebhook ops db vs ev).1.processedIds) ∧
    (∀ (ops : RAGOps) (db : DB) (vs : VSMap) (f : TwilioForm) (qa : String → Nat → String),
      (twilioWebhook ops db vs f qa).1.processedIds = db.processedIds) := by
  refine ⟨?_, ?_, ?_⟩
  · intro ops db vs ev mid hmid hmem
    unfold mainWebhook
    rw [hmid]
    have hc : db.processedIds.contains mid = true := by
      simpa using hmem
    dsimp only
    rw [if_pos hc]
  · intro ops db vs ev mid hmid hmem
    unfold mainWebhook
    rw [hmid]
    have hc : db.processedIds.contains mid = false := by
      simpa using hmem
    dsimp only
    rw [if_neg (by rw [hc]; simp)]
    rw [mainHandle_processedIds]
    simp
  · intro ops db vs f qa
    unfold twilioWebhook
    cases f.fromField with
    | none => rfl
    | some fr =>
      dsimp only
      by_cases hn : (f.numMedia == 0) = true
      · simp only [hn, Bool.not_true, Bool.false_eq_true, if_false]
        cases f.body with
        | none => rfl
        | some b =>
          dsimp only
          by_cases hb : (b == "") = true
          · simp [hb]
          · simp only [Bool.not_eq_true] at hb
            simp only [hb, Bool.false_eq_true, if_false]
            exact handleText_processedIds _ _ _ _ _
      · simp only [Bool.not_eq_true] at hn
        simp only [hn, Bool.not_false, if_true]
        exact handleDocument_processedIds _ _ _ _

/-- A Twilio media delivery (a PDF upload) with a fixed `MessageSid`. -/
def formC5 : TwilioForm :=
  ⟨some "whatsapp:+15551234", some "u", "Name", 1, "application/pdf", some "SID1", none, 1, exOk⟩

/-- Counterexample to C5 as stated: redelivering the same Twilio event (the
same `MessageSid`) through the mounted webhook route is handled again in
full — a second Document row is created and outbound replies are sent
again. -/
theorem spec_c5_idempotency_cex :
    countDocs (twilioWebhook ops0
      (twilioWebhook ops0 DB.empty [] formC5 qa0).1
      (twilioWebhook ops0 DB.empty [] formC5 qa0).2.1 formC5 qa0).1 "u" = 2 ∧
    (twilioWebhook ops0
      (twilioWebhook ops0 DB.empty [] formC5 qa0).1
      (twilioWebhook ops0 DB.empty [] formC5 qa0).2.1 formC5 qa0).2.2.1 ≠ [] := by
  refine ⟨by decide, by decide⟩

/-- A normalized text event with a message id, as seen by the legacy
handler. -/
def evMainText : InboundEv :=
  ⟨"text", "u", "Name", some "hi", none, none, none, "1", some "mid1", none⟩

/-- A store that has already recorded `mid1`. -/
def dbMid : DB := ⟨[], [], [], ["mid1"], 0, 0⟩

/-- Closed witness for the amended C5. -/
theorem spec_c5_idempotency_amended_witness :
    mainWebhook ops0 dbMid [] evMainText = (dbMid, [], [], .alreadyProcessed) ∧
    "mid1" ∈ (mainWebhook ops0 DB.empty [] evMainText).1.processedIds ∧
    (twilioWebhook ops0 DB.empty [] formC5 qa0).1.processedIds = DB.empty.processedIds :=
  ⟨spec_c5_idempotency_amended.1 ops0 dbMid [] evMainText "mid1" (by decide) (by decide),
   spec_c5_idempotency_amended.2.1 ops0 DB.empty [] evMainText "mid1" (by decide) (by decide),
   spec_c5_idempotency_amended.2.2 ops0 DB.empty [] formC5 qa0⟩

/-! ## Claim C4 -/

theorem runGraph_succ (vsKeys : List String) (fuel : Nat) (node : String) (st : WFState) :
    runGraph vsKeys (fuel + 1) node st =
      (if node == "show_welcome" then
        runGraph vsKeys fuel "initialize_context" (showWelcome st)
      else if node == "initialize_context" then
        match initializeContext st with
        | none => none
        | some st1 => runGraph vsKeys fuel "validate_document" st1
      else if node == "validate_document" then
        let st1 := validateDocument vsKeys st
        runGraph vsKeys fuel (routeAfterValidation st1) st1
      else if node == "request_question" then none
      else if node == "handle_invalid_document" then
        runGraph vsKeys fuel "initialize_context" (handleInvalidDocument st)
      else none) := rfl

/-- The compiled workflow aborts on every webhook-style invocation: either
the question is blank and `initialize_context` interrupts immediately, or
validation routes to `handle_invalid_document` (the `document_valid` field
never survives the `State` schema) which clears `file_path`, and the next
`initialize_context` interrupts. -/
theorem runGraph_none (vsKeys : List String) (q d : String) :
    runGraph vsKeys 25 "show_welcome" ⟨d, [⟨"user", q⟩], none⟩ = none := by
  show runGraph vsKeys (24 + 1) "show_welcome" ⟨d, [⟨"user", q⟩], none⟩ = none
  rw [runGraph_succ, if_pos (by decide)]
  by_cases hq : (pyStrip q == "") = true
  · have hsw : showWelcome ⟨d, [⟨"user", q⟩], none⟩ =
        ⟨"", [⟨"user", q⟩, ⟨"system", wfWelcome⟩], none⟩ := by
      simp [showWelcome, hq]
    rw [hsw]
    show runGraph vsKeys (23 + 1) "initialize_context" _ = none
    rw [runGraph_succ, if_neg (by decide), if_pos (by decide)]
    rfl
  · have hsw : showWelcome ⟨d, [⟨"user", q⟩], none⟩ =
        ⟨pyStrip q, [⟨"user", q⟩, ⟨"system", wfWelcome⟩], none⟩ := by
      simp [showWelcome, hq]
    rw [hsw]
    show runGraph vsKeys (23 + 1) "initialize_context" _ = none
    rw [runGraph_succ, if_neg (by decide), if_pos (by decide)]
    have hic : initializeContext ⟨pyStrip q, [⟨"user", q⟩, ⟨"system", wfWelcome⟩], none⟩ =
        some ⟨pyStrip q, [⟨"user", q⟩, ⟨"system", wfWelcome⟩], none⟩ := by
      simp [initializeContext, hq]
    rw [hic]
    show runGraph vsKeys (22 + 1) "validate_document" _ = none
    rw [runGraph_succ, if_neg (by decide), if_neg (by decide), if_pos (by decide)]
    have hr : routeAfterValidation (validateDocument vsKeys
        ⟨pyStrip q, [⟨"user", q⟩, ⟨"system", wfWelcome⟩], none⟩) =
        "handle_invalid_document" := rfl
    dsimp only
    rw [hr]
    show runGraph vsKeys (21 + 1) "handle_invalid_document" _ = none
    rw [runGraph_succ, if_neg (by decide), if_neg (by decide), if_neg (by decide),
      if_neg (by decide), if_pos (by decide)]
    show runGraph vsKeys (20 + 1) "initialize_context" _ = none
    rw [runGraph_succ, if_neg (by decide), if_pos (by decide)]
    rfl

/-- Store with a processed document (key 7, non-empty extracted text). -/
def dbC4 : DB := ⟨[⟨7, "a.pdf", "hello world", 0, "u", none, true⟩], [], [], [], 8, 1⟩

/-- Counterexample to C4 as stated: the document's `extracted_text` is
non-empty, so the claim requires a synchronous rebuild followed by a
retrieval-grounded answer on a dictionary miss, and use of the stored entry
on a hit; `get_answer` instead returns the workflow-error string in both
cases — the checkpointer-less `interrupt` makes `ainvoke` raise, the
`except` catches it, and neither the dictionary entry nor the Document
Store is ever consulted (compare `getAnswerSpec`, the spec-side resolution
order, which does rebuild and answer). -/
theorem spec_c4_rebuild_cex :
    (docById dbC4 7).map (fun d => d.content) = some "hello world" ∧
    getAnswer ops0 [] "what" "7" = (msgWorkflowError, []) ∧
    vsGet (getAnswer ops0 [] "what" "7").2 "7" = none ∧
    getAnswer ops0 [("7", [("hello", [5])])] "what" "7" =
      (msgWorkflowError, [("7", [("hello", [5])])]) ∧
    getAnswerSpec ops0 dbC4 [] "what" 7 ≠ getAnswer ops0 [] "what" "7" ∧
    vsGet (getAnswerSpec ops0 dbC4 [] "what" 7).2 "7" ≠ none := by
  refine ⟨by decide, by decide, by decide, by decide, by decide, by decide⟩

/-- C4 amended: answering never consults any index at all.  The workflow
graph is compiled without a checkpointer, so every invocation aborts at an
`interrupt` and `ainvoke` raises; `get_answer`'s `except` catches the
exception and returns the error string.  Neither an existing in-memory
dictionary entry (clause (a)) nor the persisted `extracted_text`
(clauses (b) and (c)) is read, nothing is rebuilt, and the dictionary is
returned unchanged. -/
theorem spec_c4_no_rebuild_amended :
    (∀ (vsKeys : List String) (q d : String),
      runGraph vsKeys 25 "show_welcome" ⟨d, [⟨"user", q⟩], none⟩ = none) ∧
    (∀ (ops : RAGOps) (vs : VSMap) (q d : String),
      getAnswer ops vs q d = (msgWorkflowError, vs)) := by
  refine ⟨fun vsKeys q d => runGraph_none vsKeys q d, ?_⟩
  intro ops vs q d
  unfold getAnswer
  rw [runGraph_none]

/-! ## Claim C9 -/

theorem vsGet_vsPut (vs : VSMap) (k : String) (v : List (String × List Int)) :
    vsGet (vsPut vs k v) k = some v := by
  unfold vsGet vsPut
  rw [List.find?_cons_of_pos _ (by simp)]
  rfl

/-- C9: rebuilding the Retrieval Index from the same text and querying it
returns the same top-k chunk set as querying the originally built index —
whatever index dictionary either run started from, after processing the
same `extracted_text` under the same external embedding/similarity
collaborators, the retrieved chunks for a question coincide (and both
equal retrieval over `buildIndex`). -/
theorem spec_c9_retrieval_determinism :
    ∀ (ops : RAGOps) (vs1 vs2 : VSMap) (text docKey q : String),
      (vsGet (processDocumentSync ops vs1 text docKey) docKey).map
          (fun idx => relevantChunks ops idx q) =
        (vsGet (processDocumentSync ops vs2 text docKey) docKey).map
          (fun idx => relevantChunks ops idx q) ∧
      vsGet (processDocumentSync ops vs1 text docKey) docKey = some (buildIndex ops text) := by
  intro ops vs1 vs2 text docKey q
  have key : ∀ vs : VSMap,
      vsGet (processDocumentSync ops vs text docKey) docKey = some (buildIndex ops text) :=
    fun vs => vsGet_vsPut vs docKey (buildIndex ops text)
  rw [key vs1, key vs2]
  exact ⟨rfl, rfl⟩
